import Mathlib

/-!
Graph-optimizer registries and plugin configuration merge.

A shallow embedding of
`tensorflow/core/grappler/optimizers/custom_graph_optimizer_registry.cc` and of
`CGraphOptimizerRegister` in `tensorflow/c/experimental/grappler/grappler_internal.h`.

* `std::unordered_map<string, V>` is an association list `UMap V`; its iteration
  order is the list order and a lookup returns the first entry with the key.
* `std::set<string>` is a `List String`, visited front to back.
* The three lazily created global maps are `Option`-valued fields of `Globals`
  (`none` is the null pointer).
* `LOG(FATAL)` is `Except.error`; a `bool` function that reaches its closing brace
  without a `return` yields `none`.
* A factory call yields `Option Opt`, `none` being a null pointer; `CreateByNameOrNull`
  reports, next to its result, the factory invocations it makes.
-/

namespace tensorflow
namespace grappler

/-! ## Data model -/

/-- Modelled from the spec: the pass toggle `RewriterConfig::Toggle` (its generated
header is not among the sources). The spec names the states `ON` and `OFF`; `DEFAULT`
is the zero value that a value-initialising map accessor stores for a missing key, and
`AGGRESSIVE` stands for the remaining enumerators. -/
inductive Toggle where
  | DEFAULT
  | ON
  | OFF
  | AGGRESSIVE
  deriving DecidableEq, Repr

/-- The tri-state of a plugin descriptor field (`TF_TriState`), as used by
`CONFIG_TOGGLE`. -/
inductive TF_TriState where
  | TF_TriState_Default
  | TF_TriState_Off
  | TF_TriState_On
  deriving DecidableEq, Repr

/-- Association-list model of `std::unordered_map<string, V>`. -/
abbrev UMap (V : Type) := List (String × V)

namespace UMap

variable {V : Type}

/-- The keys in iteration order. -/
def keys (m : UMap V) : List String := m.map Prod.fst

/-- Model of `unordered_map::find`: the value of the first entry with key `k`, or `none`
for `end()`. -/
def find : UMap V → String → Option V
  | [], _ => none
  | (k', v) :: rest, k => if k' = k then some v else find rest k

/-- Model of `unordered_map::insert({k, v})`: the map afterwards and the `second` member
of the returned pair (whether the insertion took place). -/
def insert (m : UMap V) (k : String) (v : V) : UMap V × Bool :=
  match m.find k with
  | some _ => (m, false)
  | none => (m ++ [(k, v)], true)

/-- Model of reading `m[k]`: the value found and the map afterwards; a missing key is
inserted with the value-initialised `dflt`. -/
def index (dflt : V) (m : UMap V) (k : String) : V × UMap V :=
  match m.find k with
  | some v => (v, m)
  | none => (dflt, m ++ [(k, dflt)])

/-- Model of the assignment `m[k] = v`. -/
def assign : UMap V → String → V → UMap V
  | [], k, v => [(k, v)]
  | (k', v') :: rest, k, v =>
    if k' = k then (k', v) :: rest else (k', v') :: assign rest k v

end UMap

/-- The `ConfigsList` record: the pruning switch and the per-pass toggles. -/
structure ConfigsList where
  disable_model_pruning : Bool
  toggle_config : UMap Toggle
  deriving DecidableEq, Repr

/-- Modelled from the spec: `ConfigsList::operator==` (declared in the registry header,
which is not among the sources). Two ConfigSets are equal iff `disable_model_pruning`
matches and every key's tri-state matches. -/
def ConfigsList.eq (a b : ConfigsList) : Bool :=
  a.disable_model_pruning == b.disable_model_pruning &&
  a.toggle_config.all (fun p => b.toggle_config.find p.1 == a.toggle_config.find p.1) &&
  b.toggle_config.all (fun p => a.toggle_config.find p.1 == b.toggle_config.find p.1)

/-- An optimizer factory (`std::function<CustomGraphOptimizer*()>`): a call returns a
pointer to an optimizer, `none` being the null pointer. -/
abbrev Creator (Opt : Type) := Unit → Option Opt

/-- The process-wide variables of the registry file; `none` is a null map pointer. -/
structure Globals (Opt : Type) where
  registered_optimizers : Option (UMap (Creator Opt))
  registered_plugin_optimizers : Option (UMap (Creator Opt))
  plugin_config_map : Option (UMap ConfigsList)

/-- The state at process start: the three map pointers are null. -/
def Globals.init (Opt : Type) : Globals Opt :=
  ⟨none, none, none⟩

/-- The content of the built-in name → factory map (empty while not yet created). -/
def Globals.builtins {Opt : Type} (g : Globals Opt) : UMap (Creator Opt) :=
  g.registered_optimizers.getD []

/-- The content of the plugin device-type → factory map. -/
def Globals.pluginFactories {Opt : Type} (g : Globals Opt) : UMap (Creator Opt) :=
  g.registered_plugin_optimizers.getD []

/-- The content of the plugin device-type → ConfigsList map. -/
def Globals.pluginConfigs {Opt : Type} (g : Globals Opt) : UMap ConfigsList :=
  g.plugin_config_map.getD []

/-- The 17 pass names, in the order of the initialiser of `default_plugin_configs`. -/
def passNames : List String :=
  ["implementation_selector", "function_optimization", "common_subgraph_elimination",
   "arithmetic_optimization", "debug_stripper", "constant_folding", "shape_optimization",
   "auto_mixed_precision", "auto_mixed_precision_mkl", "pin_to_host_optimization",
   "layout_optimizer", "remapping", "loop_optimization", "dependency_optimization",
   "auto_parallel", "memory_optimization", "scoped_allocator_optimization"]

/-- The global `default_plugin_configs`. -/
def default_plugin_configs : ConfigsList :=
  { disable_model_pruning := false
    toggle_config :=
      [("implementation_selector", Toggle.ON),
       ("function_optimization", Toggle.ON),
       ("common_subgraph_elimination", Toggle.ON),
       ("arithmetic_optimization", Toggle.ON),
       ("debug_stripper", Toggle.ON),
       ("constant_folding", Toggle.ON),
       ("shape_optimization", Toggle.ON),
       ("auto_mixed_precision", Toggle.ON),
       ("auto_mixed_precision_mkl", Toggle.ON),
       ("pin_to_host_optimization", Toggle.ON),
       ("layout_optimizer", Toggle.ON),
       ("remapping", Toggle.ON),
       ("loop_optimization", Toggle.ON),
       ("dependency_optimization", Toggle.ON),
       ("auto_parallel", Toggle.ON),
       ("memory_optimization", Toggle.ON),
       ("scoped_allocator_optimization", Toggle.ON)] }

/-- A toggle map has the full key set: its keys are exactly the 17 pass names. -/
def HasFullKeySet (m : UMap Toggle) : Prop :=
  ∀ k, k ∈ m.keys ↔ k ∈ passNames

/-! ## Lazily created global maps -/

/-- `GetRegistrationMap()`: the built-in map, created empty on first use. -/
def GetRegistrationMap {Opt : Type} (g : Globals Opt) : UMap (Creator Opt) × Globals Opt :=
  match g.registered_optimizers with
  | none => ([], { g with registered_optimizers := some [] })
  | some m => (m, g)

/-- `GetPluginRegistrationMap()`: the plugin factory map, created empty on first use. -/
def GetPluginRegistrationMap {Opt : Type} (g : Globals Opt) :
    UMap (Creator Opt) × Globals Opt :=
  match g.registered_plugin_optimizers with
  | none => ([], { g with registered_plugin_optimizers := some [] })
  | some m => (m, g)

/-- `GetPluginConfigMap()`: the plugin config map, created empty on first use. -/
def GetPluginConfigMap {Opt : Type} (g : Globals Opt) : UMap ConfigsList × Globals Opt :=
  match g.plugin_config_map with
  | none => ([], { g with plugin_config_map := some [] })
  | some m => (m, g)

/-! ## CustomGraphOptimizerRegistry -/

/-- `CustomGraphOptimizerRegistry::CreateByNameOrNull`: the `unique_ptr` returned (`none`
is the null pointer: the `nullptr` of the not-found branch, or whatever pointer the
factory hands back) together with the factory invocations the call makes, each recorded
by the key whose factory is invoked, and the globals afterwards. -/
def CreateByNameOrNull {Opt : Type} (g : Globals Opt) (name : String) :
    (Option Opt × List String) × Globals Opt :=
  let r := GetRegistrationMap g
  match r.1.find name with
  | none => ((none, []), r.2)
  | some creator => ((creator (), [name]), r.2)

/-- `CustomGraphOptimizerRegistry::GetRegisteredOptimizers`: one `emplace_back` per
entry of the map. -/
def GetRegisteredOptimizers {Opt : Type} (g : Globals Opt) : List String × Globals Opt :=
  let r := GetRegistrationMap g
  (r.1.foldl (fun optimizer_names opt => optimizer_names ++ [opt.1]) [], r.2)

/-- `CustomGraphOptimizerRegistry::RegisterOptimizerOrDie`; `Except.error` is the
`LOG(FATAL)` abort. -/
def RegisterOptimizerOrDie {Opt : Type} (g : Globals Opt)
    (optimizer_creator : Creator Opt) (name : String) : Except String (Globals Opt) :=
  let r := GetRegistrationMap g
  match r.1.find name with
  | some _ => Except.error ("CustomGraphOptimizer is registered twice: " ++ name)
  | none =>
    Except.ok { r.2 with
      registered_optimizers := some (r.1.insert name optimizer_creator).1 }

/-! ## PluginGraphOptimizerRegistry -/

/-- The loop of `CreateOptimizer` over the entries of the plugin factory map: an entry
whose device type is not in `device_types` is skipped, any other one has its factory
called and the `unique_ptr` holding the returned pointer appended. -/
def CreateOptimizer.loop {Opt : Type} (device_types : List String) :
    List (String × Creator Opt) → List (Option Opt) → List (Option Opt)
  | [], optimizer_list => optimizer_list
  | it :: rest, optimizer_list =>
    if it.1 ∉ device_types then CreateOptimizer.loop device_types rest optimizer_list
    else CreateOptimizer.loop device_types rest (optimizer_list ++ [it.2 ()])

/-- `PluginGraphOptimizerRegistry::CreateOptimizer`. -/
def CreateOptimizer {Opt : Type} (g : Globals Opt) (device_types : List String) :
    List (Option Opt) × Globals Opt :=
  let r := GetPluginRegistrationMap g
  (CreateOptimizer.loop device_types r.1 [], r.2)

/-- `PluginGraphOptimizerRegistry::RegisterPluginOptimizerOrDie`: the duplicate test is
the result of the insertion into the config map; `Except.error` is the `LOG(FATAL)`
abort. -/
def RegisterPluginOptimizerOrDie {Opt : Type} (g : Globals Opt)
    (optimizer_creator : Creator Opt) (device_type : String) (configs : ConfigsList) :
    Except String (Globals Opt) :=
  let r := GetPluginConfigMap g
  let ret := r.1.insert device_type configs
  let g1 : Globals Opt := { r.2 with plugin_config_map := some ret.1 }
  if !ret.2 then
    Except.error ("PluginGraphOptimizer with device_type " ++ device_type ++
      " is registered twice.")
  else
    let q := GetPluginRegistrationMap g1
    Except.ok { q.2 with
      registered_plugin_optimizers := some (q.1.insert device_type optimizer_creator).1 }

/-- The first loop of `PrintPluginConfigsIfConflict`, returning the final value of
`conflict`. The variables `init` and `plugin_configs` are one `Option`: `none` while
`init` is false, `some c` once `plugin_configs` has been assigned `c`. -/
def PrintPluginConfigsIfConflict.check {Opt : Type} :
    List String → Globals Opt → Option ConfigsList → Bool × Globals Opt
  | [], g, _ => (false, g)
  | device_type :: rest, g, plugin_configs =>
    let r := GetPluginConfigMap g
    match r.1.find device_type with
    | none => PrintPluginConfigsIfConflict.check rest r.2 plugin_configs
    | some cur_plugin_configs =>
      match plugin_configs with
      | none => PrintPluginConfigsIfConflict.check rest r.2 (some cur_plugin_configs)
      | some pc =>
        if !(pc.eq cur_plugin_configs) then (true, r.2)
        else PrintPluginConfigsIfConflict.check rest r.2 (some pc)

/-- How `strings::StrAppend` renders a `bool`. -/
def boolText (b : Bool) : String := if b then "1" else "0"

/-- The count `32 - pair.first.size()` in `size_t` (64-bit unsigned) arithmetic. -/
def padCount (size : Nat) : Nat := (32 + 2 ^ 64 - size % 2 ^ 64) % 2 ^ 64

/-- One line of the dump for an entry of `toggle_config`. -/
def dumpLine (pair : String × Toggle) : String :=
  pair.1 ++ String.mk (List.replicate (padCount pair.1.utf8ByteSize) ' ') ++
    boolText (decide (pair.2 ≠ Toggle.OFF)) ++ "\n"

/-- The string `logs` built for one ConfigsList in the dump. -/
def dumpLogs (cur_plugin_configs : ConfigsList) : String :=
  cur_plugin_configs.toggle_config.foldl (fun logs pair => logs ++ dumpLine pair)
    ("disable_model_pruning\t\t" ++ boolText cur_plugin_configs.disable_model_pruning ++ "\n")

/-- The second loop of `PrintPluginConfigsIfConflict`: one warning per registered device
type. -/
def PrintPluginConfigsIfConflict.dump {Opt : Type} :
    List String → Globals Opt → List String → List String × Globals Opt
  | [], g, out => (out, g)
  | device_type :: rest, g, out =>
    let r := GetPluginConfigMap g
    match r.1.find device_type with
    | none => PrintPluginConfigsIfConflict.dump rest r.2 out
    | some cur_plugin_configs =>
      PrintPluginConfigsIfConflict.dump rest r.2
        (out ++ ["\nPlugin's config for device_type " ++ device_type ++ ":\n" ++
          dumpLogs cur_plugin_configs])

/-- `PluginGraphOptimizerRegistry::PrintPluginConfigsIfConflict`: the warnings logged
and the globals afterwards. -/
def PrintPluginConfigsIfConflict {Opt : Type} (g : Globals Opt)
    (device_types : List String) : List String × Globals Opt :=
  let c := PrintPluginConfigsIfConflict.check device_types g none
  if !c.1 then ([], c.2)
  else
    PrintPluginConfigsIfConflict.dump device_types c.2
      ["Plugins have conflicit configs. Potential performance regression may happen."]

/-- The inner loop of `GetPluginConfigs` over the entries of the local copy
`cur_plugin_configs.toggle_config`: `cur` is that copy's map as the reads
`cur_plugin_configs.toggle_config[pair.first]` leave it, `ret` is
`ret_plugin_configs.toggle_config`. -/
def GetPluginConfigs.inner :
    List (String × Toggle) → UMap Toggle → UMap Toggle → UMap Toggle
  | [], _, ret => ret
  | pair :: rest, cur, ret =>
    let c := UMap.index Toggle.DEFAULT cur pair.1
    if c.1 = Toggle.OFF then
      GetPluginConfigs.inner rest c.2 (ret.assign pair.1 Toggle.OFF)
    else GetPluginConfigs.inner rest c.2 ret

/-- The body of the loop of `GetPluginConfigs` for a device type whose config
`cur_plugin_configs` was found: the pruning switch is raised, then the inner loop runs. -/
def GetPluginConfigs.body (cur_plugin_configs ret_plugin_configs : ConfigsList) :
    ConfigsList :=
  let ret1 : ConfigsList :=
    if cur_plugin_configs.disable_model_pruning = true then
      { ret_plugin_configs with disable_model_pruning := true }
    else ret_plugin_configs
  { ret1 with
    toggle_config :=
      GetPluginConfigs.inner cur_plugin_configs.toggle_config
        cur_plugin_configs.toggle_config ret1.toggle_config }

/-- The loop of `GetPluginConfigs` over `device_types`. -/
def GetPluginConfigs.loop {Opt : Type} :
    List String → Globals Opt → ConfigsList → ConfigsList × Globals Opt
  | [], g, ret_plugin_configs => (ret_plugin_configs, g)
  | device_type :: rest, g, ret_plugin_configs =>
    let r := GetPluginConfigMap g
    match r.1.find device_type with
    | none => GetPluginConfigs.loop rest r.2 ret_plugin_configs
    | some cur_plugin_configs =>
      GetPluginConfigs.loop rest r.2
        (GetPluginConfigs.body cur_plugin_configs ret_plugin_configs)

/-- `PluginGraphOptimizerRegistry::GetPluginConfigs`. -/
def GetPluginConfigs {Opt : Type} (g : Globals Opt) (use_plugin_optimizers : Bool)
    (device_types : List String) : ConfigsList × Globals Opt :=
  if !use_plugin_optimizers then (default_plugin_configs, g)
  else GetPluginConfigs.loop device_types g default_plugin_configs

/-- The loop of `IsConfigsConflict` over the entries of `user_config.toggle_config`,
with both toggle maps threaded through the `operator[]` reads. The right operand of
`&&` is read only when the left one holds. The empty list is the fall-through to the
closing brace, where no value is returned. -/
def IsConfigsConflict.loop :
    List (String × Toggle) → UMap Toggle → UMap Toggle →
      Option Bool × UMap Toggle × UMap Toggle
  | [], user, plugin => (none, user, plugin)
  | pair :: rest, user, plugin =>
    let u := UMap.index Toggle.DEFAULT user pair.1
    if u.1 = Toggle.ON then
      let p := UMap.index Toggle.DEFAULT plugin pair.1
      if p.1 = Toggle.OFF then (some true, u.2, p.2)
      else IsConfigsConflict.loop rest u.2 p.2
    else IsConfigsConflict.loop rest u.2 plugin

/-- `PluginGraphOptimizerRegistry::IsConfigsConflict`: the returned value (`none` when
control leaves the function without a `return`) and the two arguments, passed by
mutable reference, as they are afterwards. -/
def IsConfigsConflict (user_config plugin_config : ConfigsList) :
    Option Bool × ConfigsList × ConfigsList :=
  if plugin_config.eq default_plugin_configs then (some false, user_config, plugin_config)
  else if user_config.disable_model_pruning != plugin_config.disable_model_pruning then
    (some true, user_config, plugin_config)
  else
    let r := IsConfigsConflict.loop user_config.toggle_config user_config.toggle_config
      plugin_config.toggle_config
    (r.1, { user_config with toggle_config := r.2.1 },
      { plugin_config with toggle_config := r.2.2 })

/-! ## Registration from a plugin descriptor -/

/-- Modelled from the spec: the tri-state fields of the plugin descriptor
`TP_OptimizerConfigs` (declared in `grappler.h`, which is not among the sources): one
flag per known pass name plus the pruning-disable flag. -/
structure TP_OptimizerConfigs where
  disable_model_pruning : TF_TriState
  implementation_selector : TF_TriState
  function_optimization : TF_TriState
  common_subgraph_elimination : TF_TriState
  arithmetic_optimization : TF_TriState
  debug_stripper : TF_TriState
  constant_folding : TF_TriState
  shape_optimization : TF_TriState
  auto_mixed_precision : TF_TriState
  auto_mixed_precision_mkl : TF_TriState
  pin_to_host_optimization : TF_TriState
  layout_optimizer : TF_TriState
  remapping : TF_TriState
  loop_optimization : TF_TriState
  dependency_optimization : TF_TriState
  auto_parallel : TF_TriState
  memory_optimization : TF_TriState
  scoped_allocator_optimization : TF_TriState

/-- The body of the `CONFIG_TOGGLE(optimizer)` expansion: `field` is
`tp_configs.optimizer` and `name` the stringised `#optimizer`. -/
def CONFIG_TOGGLE (field : TF_TriState) (name : String) (configs : ConfigsList) :
    ConfigsList :=
  if field = TF_TriState.TF_TriState_Off then
    { configs with toggle_config := configs.toggle_config.assign name Toggle.OFF }
  else
    { configs with toggle_config := configs.toggle_config.assign name Toggle.ON }

/-- The ConfigsList that `CGraphOptimizerRegister` builds from the descriptor. -/
def CGraphOptimizerRegister.configs (tp_configs : TP_OptimizerConfigs) : ConfigsList :=
  let configs : ConfigsList :=
    { disable_model_pruning :=
        if tp_configs.disable_model_pruning = TF_TriState.TF_TriState_On then true
        else false
      toggle_config := [] }
  let configs := CONFIG_TOGGLE tp_configs.implementation_selector "implementation_selector" configs
  let configs := CONFIG_TOGGLE tp_configs.function_optimization "function_optimization" configs
  let configs := CONFIG_TOGGLE tp_configs.common_subgraph_elimination
    "common_subgraph_elimination" configs
  let configs := CONFIG_TOGGLE tp_configs.arithmetic_optimization "arithmetic_optimization" configs
  let configs := CONFIG_TOGGLE tp_configs.debug_stripper "debug_stripper" configs
  let configs := CONFIG_TOGGLE tp_configs.constant_folding "constant_folding" configs
  let configs := CONFIG_TOGGLE tp_configs.shape_optimization "shape_optimization" configs
  let configs := CONFIG_TOGGLE tp_configs.auto_mixed_precision "auto_mixed_precision" configs
  let configs := CONFIG_TOGGLE tp_configs.auto_mixed_precision_mkl
    "auto_mixed_precision_mkl" configs
  let configs := CONFIG_TOGGLE tp_configs.pin_to_host_optimization
    "pin_to_host_optimization" configs
  let configs := CONFIG_TOGGLE tp_configs.layout_optimizer "layout_optimizer" configs
  let configs := CONFIG_TOGGLE tp_configs.remapping "remapping" configs
  let configs := CONFIG_TOGGLE tp_configs.loop_optimization "loop_optimization" configs
  let configs := CONFIG_TOGGLE tp_configs.dependency_optimization "dependency_optimization" configs
  let configs := CONFIG_TOGGLE tp_configs.auto_parallel "auto_parallel" configs
  let configs := CONFIG_TOGGLE tp_configs.memory_optimization "memory_optimization" configs
  CONFIG_TOGGLE tp_configs.scoped_allocator_optimization "scoped_allocator_optimization" configs

/-- `CGraphOptimizerRegister`. -/
def CGraphOptimizerRegister {Opt : Type} (g : Globals Opt) (creator : Creator Opt)
    (tp_configs : TP_OptimizerConfigs) (device_type : String) :
    Except String (Globals Opt) :=
  RegisterPluginOptimizerOrDie g creator device_type
    (CGraphOptimizerRegister.configs tp_configs)

/-- The tri-state pass fields of a descriptor, each paired with the name of the field,
in the order in which `CGraphOptimizerRegister` expands `CONFIG_TOGGLE` for them. -/
def TP_OptimizerConfigs.toggles (tp_configs : TP_OptimizerConfigs) :
    List (String × TF_TriState) :=
  [("implementation_selector", tp_configs.implementation_selector),
   ("function_optimization", tp_configs.function_optimization),
   ("common_subgraph_elimination", tp_configs.common_subgraph_elimination),
   ("arithmetic_optimization", tp_configs.arithmetic_optimization),
   ("debug_stripper", tp_configs.debug_stripper),
   ("constant_folding", tp_configs.constant_folding),
   ("shape_optimization", tp_configs.shape_optimization),
   ("auto_mixed_precision", tp_configs.auto_mixed_precision),
   ("auto_mixed_precision_mkl", tp_configs.auto_mixed_precision_mkl),
   ("pin_to_host_optimization", tp_configs.pin_to_host_optimization),
   ("layout_optimizer", tp_configs.layout_optimizer),
   ("remapping", tp_configs.remapping),
   ("loop_optimization", tp_configs.loop_optimization),
   ("dependency_optimization", tp_configs.dependency_optimization),
   ("auto_parallel", tp_configs.auto_parallel),
   ("memory_optimization", tp_configs.memory_optimization),
   ("scoped_allocator_optimization", tp_configs.scoped_allocator_optimization)]

/-- A sequence of `RegisterOptimizerOrDie` calls, one per `(name, creator)` pair, front to
back; the first abort ends the run. -/
def registerOptimizers {Opt : Type} :
    Globals Opt → List (String × Creator Opt) → Except String (Globals Opt)
  | g, [] => Except.ok g
  | g, reg :: rest =>
    match RegisterOptimizerOrDie g reg.2 reg.1 with
    | Except.error msg => Except.error msg
    | Except.ok g1 => registerOptimizers g1 rest

/-- The states the registry can be in: the state at process start and every state that
a call of a registry function that did not abort leaves behind. -/
inductive Reachable {Opt : Type} : Globals Opt → Prop
  | start : Reachable (Globals.init Opt)
  | registerOptimizer {g g1 : Globals Opt} (c : Creator Opt) (name : String) :
      Reachable g → RegisterOptimizerOrDie g c name = Except.ok g1 → Reachable g1
  | registerPlugin {g g1 : Globals Opt} (c : Creator Opt) (device_type : String)
      (configs : ConfigsList) :
      Reachable g → RegisterPluginOptimizerOrDie g c device_type configs = Except.ok g1 →
      Reachable g1
  | createByName {g : Globals Opt} (name : String) :
      Reachable g → Reachable (CreateByNameOrNull g name).2
  | getRegistered {g : Globals Opt} :
      Reachable g → Reachable (GetRegisteredOptimizers g).2
  | createOptimizer {g : Globals Opt} (device_types : List String) :
      Reachable g → Reachable (CreateOptimizer g device_types).2
  | printConflict {g : Globals Opt} (device_types : List String) :
      Reachable g → Reachable (PrintPluginConfigsIfConflict g device_types).2
  | getConfigs {g : Globals Opt} (b : Bool) (device_types : List String) :
      Reachable g → Reachable (GetPluginConfigs g b device_types).2

/-- Two states hold the same three maps (a null map pointer counts as the empty map). -/
def Globals.SameContent {Opt : Type} (g g1 : Globals Opt) : Prop :=
  g1.builtins = g.builtins ∧ g1.pluginFactories = g.pluginFactories ∧
    g1.pluginConfigs = g.pluginConfigs

/-! ## Concrete states used in the examples -/

/-- The default with the pass `remapping` switched off. -/
def remappingOff : ConfigsList :=
  { default_plugin_configs with
    toggle_config := default_plugin_configs.toggle_config.assign "remapping" Toggle.OFF }

/-- Plugin A of the examples: pruning disabled, every pass ON. -/
def configA : ConfigsList :=
  { default_plugin_configs with disable_model_pruning := true }

/-- Plugin A with the pass `remapping` switched off: pruning disabled, remapping OFF. -/
def configARemappingOff : ConfigsList :=
  { configA with
    toggle_config := configA.toggle_config.assign "remapping" Toggle.OFF }

/-- A descriptor that leaves every tri-state field unset. -/
def tpUnset : TP_OptimizerConfigs :=
  { disable_model_pruning := TF_TriState.TF_TriState_Default
    implementation_selector := TF_TriState.TF_TriState_Default
    function_optimization := TF_TriState.TF_TriState_Default
    common_subgraph_elimination := TF_TriState.TF_TriState_Default
    arithmetic_optimization := TF_TriState.TF_TriState_Default
    debug_stripper := TF_TriState.TF_TriState_Default
    constant_folding := TF_TriState.TF_TriState_Default
    shape_optimization := TF_TriState.TF_TriState_Default
    auto_mixed_precision := TF_TriState.TF_TriState_Default
    auto_mixed_precision_mkl := TF_TriState.TF_TriState_Default
    pin_to_host_optimization := TF_TriState.TF_TriState_Default
    layout_optimizer := TF_TriState.TF_TriState_Default
    remapping := TF_TriState.TF_TriState_Default
    loop_optimization := TF_TriState.TF_TriState_Default
    dependency_optimization := TF_TriState.TF_TriState_Default
    auto_parallel := TF_TriState.TF_TriState_Default
    memory_optimization := TF_TriState.TF_TriState_Default
    scoped_allocator_optimization := TF_TriState.TF_TriState_Default }

/-- A descriptor that sets every pass to On and `disable_model_pruning` to Off. -/
def tpAllOn : TP_OptimizerConfigs :=
  { disable_model_pruning := TF_TriState.TF_TriState_Off
    implementation_selector := TF_TriState.TF_TriState_On
    function_optimization := TF_TriState.TF_TriState_On
    common_subgraph_elimination := TF_TriState.TF_TriState_On
    arithmetic_optimization := TF_TriState.TF_TriState_On
    debug_stripper := TF_TriState.TF_TriState_On
    constant_folding := TF_TriState.TF_TriState_On
    shape_optimization := TF_TriState.TF_TriState_On
    auto_mixed_precision := TF_TriState.TF_TriState_On
    auto_mixed_precision_mkl := TF_TriState.TF_TriState_On
    pin_to_host_optimization := TF_TriState.TF_TriState_On
    layout_optimizer := TF_TriState.TF_TriState_On
    remapping := TF_TriState.TF_TriState_On
    loop_optimization := TF_TriState.TF_TriState_On
    dependency_optimization := TF_TriState.TF_TriState_On
    auto_parallel := TF_TriState.TF_TriState_On
    memory_optimization := TF_TriState.TF_TriState_On
    scoped_allocator_optimization := TF_TriState.TF_TriState_On }

/-- A descriptor with `remapping` Off, `layout_optimizer` On, pruning disabled and every
other field unset. -/
def tpRemappingOff : TP_OptimizerConfigs :=
  { tpUnset with
    disable_model_pruning := TF_TriState.TF_TriState_On
    layout_optimizer := TF_TriState.TF_TriState_On
    remapping := TF_TriState.TF_TriState_Off }

/-- The built-in registrations used in the examples: "a" and then "b". -/
def builtinsAB : List (String × Creator String) :=
  [("a", fun _ => some "A"), ("b", fun _ => some "B")]

/-- The state after the registrations `builtinsAB` at process start. -/
def stateAB : Globals String :=
  { registered_optimizers := some [("a", fun _ => some "A"), ("b", fun _ => some "B")]
    registered_plugin_optimizers := none
    plugin_config_map := none }

/-- A built-in registration whose factory returns the null pointer. -/
def builtinsNull : List (String × Creator String) :=
  [("null", fun _ => none)]

/-- The state after the registration `builtinsNull` at process start. -/
def stateNull : Globals String :=
  { registered_optimizers := some [("null", fun _ => none)]
    registered_plugin_optimizers := none
    plugin_config_map := none }

/-- A state with plugins registered for "GPU" and "CPU", in this order; the factories
return a pointer to a named instance. -/
def stateGpuCpu : Globals String :=
  { registered_optimizers := none
    registered_plugin_optimizers :=
      some [("GPU", fun _ => some "gpu-optimizer"), ("CPU", fun _ => some "cpu-optimizer")]
    plugin_config_map := some [("GPU", configA), ("CPU", remappingOff)] }

/-- A state with plugin A registered for device "X" and plugin B (`remappingOff`) for
device "Y"; the factories return a pointer to an instance named like the device. -/
def stateXY : Globals String :=
  { registered_optimizers := none
    registered_plugin_optimizers := some [("X", fun _ => some "X"), ("Y", fun _ => some "Y")]
    plugin_config_map := some [("X", configA), ("Y", remappingOff)] }

/-! ## Lemmas about the map model -/

namespace UMap

variable {V : Type}

theorem find_append (m n : UMap V) (k : String) :
    (m ++ n).find k = (m.find k).orElse (fun _ => n.find k) := by
  induction m with
  | nil => simp [find]
  | cons e rest ih =>
    obtain ⟨k', v⟩ := e
    by_cases h : k' = k
    · simp [find, h]
    · simp [find, h, ih]

theorem find_isSome_iff (m : UMap V) (k : String) :
    (m.find k).isSome = true ↔ k ∈ m.keys := by
  induction m with
  | nil => simp [find, keys]
  | cons e rest ih =>
    obtain ⟨k', v⟩ := e
    by_cases h : k' = k
    · simp [find, keys, h]
    · have h' : ¬ k = k' := fun e => h e.symm
      simp only [keys] at ih
      simp [find, keys, h, h', ih]

theorem find_eq_none_iff (m : UMap V) (k : String) :
    m.find k = none ↔ k ∉ m.keys := by
  rw [← find_isSome_iff]
  cases m.find k <;> simp

theorem find_isSome_of_mem (m : UMap V) (p : String × V) (h : p ∈ m) :
    (m.find p.1).isSome = true := by
  rw [find_isSome_iff]
  exact List.mem_map_of_mem Prod.fst h

theorem index_of_find (dflt : V) (m : UMap V) (k : String) (v : V)
    (h : m.find k = some v) : index dflt m k = (v, m) := by
  simp [index, h]

theorem find_assign (m : UMap V) (k k' : String) (v : V) :
    (m.assign k v).find k' = if k = k' then some v else m.find k' := by
  induction m with
  | nil => simp [assign, find]
  | cons e rest ih =>
    obtain ⟨k0, v0⟩ := e
    by_cases h0 : k0 = k
    · subst h0
      by_cases h1 : k0 = k' <;> simp [assign, find, h1]
    · by_cases h1 : k0 = k'
      · subst h1
        have : ¬ k = k0 := fun e => h0 e.symm
        simp [assign, find, h0, this]
      · simp [assign, find, h0, h1, ih]

theorem find_insert_self (m : UMap V) (k : String) (v : V) (h : m.find k = none) :
    (m.insert k v).1.find k = some v := by
  simp [insert, h, find_append, find]

theorem find_insert_of_ne (m : UMap V) (k k' : String) (v : V) (h : k ≠ k') :
    (m.insert k v).1.find k' = m.find k' := by
  unfold insert
  cases hk : m.find k with
  | some _ => rfl
  | none =>
    simp only [find_append, find, h, if_false]
    cases m.find k' <;> rfl

theorem keys_insert (m : UMap V) (k : String) (v : V) (h : m.find k = none) :
    (m.insert k v).1.keys = m.keys ++ [k] := by
  simp [insert, h, keys]

end UMap

/-! ## Lemmas about the lazily created maps -/

section lazy

variable {Opt : Type}

theorem GetPluginConfigMap_fst (g : Globals Opt) :
    (GetPluginConfigMap g).1 = g.pluginConfigs := by
  unfold GetPluginConfigMap Globals.pluginConfigs
  cases g.plugin_config_map <;> rfl

theorem GetPluginConfigMap_snd (g : Globals Opt) :
    (GetPluginConfigMap g).2.pluginConfigs = g.pluginConfigs := by
  unfold GetPluginConfigMap Globals.pluginConfigs
  cases h : g.plugin_config_map <;> simp [h]

theorem GetPluginRegistrationMap_fst (g : Globals Opt) :
    (GetPluginRegistrationMap g).1 = g.pluginFactories := by
  unfold GetPluginRegistrationMap Globals.pluginFactories
  cases g.registered_plugin_optimizers <;> rfl

theorem GetRegistrationMap_fst (g : Globals Opt) :
    (GetRegistrationMap g).1 = g.builtins := by
  unfold GetRegistrationMap Globals.builtins
  cases g.registered_optimizers <;> rfl

end lazy

/-! ## The merge performed by `GetPluginConfigs` -/

theorem GetPluginConfigs.inner_find (entries : List (String × Toggle))
    (cur ret : UMap Toggle) (k : String)
    (h : ∀ p ∈ entries, (cur.find p.1).isSome = true) :
    (GetPluginConfigs.inner entries cur ret).find k =
      if k ∈ entries.map Prod.fst ∧ cur.find k = some Toggle.OFF then some Toggle.OFF
      else ret.find k := by
  induction entries generalizing ret with
  | nil => simp [GetPluginConfigs.inner]
  | cons pair rest ih =>
    have hp : (cur.find pair.1).isSome = true := h pair (List.mem_cons_self _ _)
    have hrest : ∀ p ∈ rest, (cur.find p.1).isSome = true :=
      fun p hp => h p (List.mem_cons_of_mem _ hp)
    obtain ⟨v, hv⟩ := Option.isSome_iff_exists.mp hp
    simp only [GetPluginConfigs.inner, UMap.index_of_find _ _ _ _ hv]
    by_cases hoff : v = Toggle.OFF
    · subst hoff
      simp only [if_true]
      rw [ih _ hrest, UMap.find_assign]
      by_cases hk : pair.1 = k
      · subst hk
        simp [hv]
      · have hk' : ¬ k = pair.1 := fun e => hk e.symm
        simp only [hk, if_false]
        exact if_congr (by simp [hk']) rfl rfl
    · simp only [hoff, if_false]
      rw [ih _ hrest]
      by_cases hk : k = pair.1
      · subst hk
        simp [hv, hoff]
      · exact if_congr (by simp [hk]) rfl rfl

theorem GetPluginConfigs.inner_self_find (cur ret : UMap Toggle) (k : String) :
    (GetPluginConfigs.inner cur cur ret).find k =
      if cur.find k = some Toggle.OFF then some Toggle.OFF else ret.find k := by
  rw [GetPluginConfigs.inner_find cur cur ret k (fun p hp => UMap.find_isSome_of_mem cur p hp)]
  by_cases h : cur.find k = some Toggle.OFF
  · have hk : k ∈ cur.keys := by
      rw [← UMap.find_isSome_iff, h]; rfl
    simp only [UMap.keys] at hk
    simp [h, hk]
  · simp [h]

theorem GetPluginConfigs.body_toggle (cur ret : ConfigsList) (k : String) :
    (GetPluginConfigs.body cur ret).toggle_config.find k =
      if cur.toggle_config.find k = some Toggle.OFF then some Toggle.OFF
      else ret.toggle_config.find k := by
  unfold GetPluginConfigs.body
  by_cases h : cur.disable_model_pruning = true <;>
    simp [h, GetPluginConfigs.inner_self_find]

theorem GetPluginConfigs.body_pruning (cur ret : ConfigsList) :
    (GetPluginConfigs.body cur ret).disable_model_pruning =
      (cur.disable_model_pruning || ret.disable_model_pruning) := by
  unfold GetPluginConfigs.body
  by_cases h : cur.disable_model_pruning = true
  · simp [h]
  · have h' : cur.disable_model_pruning = false := by simpa using h
    simp [h']

section merge

variable {Opt : Type}

theorem GetPluginConfigs.loop_toggle_off (S : List String) (g : Globals Opt)
    (ret : ConfigsList) (k : String)
    (h : ret.toggle_config.find k = some Toggle.OFF ∨
      ∃ d ∈ S, ∃ cfg, g.pluginConfigs.find d = some cfg ∧
        cfg.toggle_config.find k = some Toggle.OFF) :
    (GetPluginConfigs.loop S g ret).1.toggle_config.find k = some Toggle.OFF := by
  induction S generalizing g ret with
  | nil =>
    rcases h with h | ⟨d, hd, _⟩
    · simpa [GetPluginConfigs.loop] using h
    · simp at hd
  | cons d rest ih =>
    simp only [GetPluginConfigs.loop]
    rw [GetPluginConfigMap_fst]
    cases hfind : g.pluginConfigs.find d with
    | none =>
      simp only []
      apply ih
      rw [GetPluginConfigMap_snd]
      rcases h with h | ⟨d', hd', cfg, hcfg, hoff⟩
      · exact Or.inl h
      · rcases List.mem_cons.mp hd' with rfl | hmem
        · rw [hfind] at hcfg; cases hcfg
        · exact Or.inr ⟨d', hmem, cfg, hcfg, hoff⟩
    | some cur =>
      simp only []
      apply ih
      rw [GetPluginConfigMap_snd, GetPluginConfigs.body_toggle]
      rcases h with h | ⟨d', hd', cfg, hcfg, hoff⟩
      · left
        by_cases hc : cur.toggle_config.find k = some Toggle.OFF <;> simp [hc, h]
      · rcases List.mem_cons.mp hd' with rfl | hmem
        · rw [hfind] at hcfg
          cases hcfg
          left
          simp [hoff]
        · exact Or.inr ⟨d', hmem, cfg, hcfg, hoff⟩

theorem GetPluginConfigs.loop_toggle_keep (S : List String) (g : Globals Opt)
    (ret : ConfigsList) (k : String)
    (h : ¬ ∃ d ∈ S, ∃ cfg, g.pluginConfigs.find d = some cfg ∧
        cfg.toggle_config.find k = some Toggle.OFF) :
    (GetPluginConfigs.loop S g ret).1.toggle_config.find k = ret.toggle_config.find k := by
  induction S generalizing g ret with
  | nil => simp [GetPluginConfigs.loop]
  | cons d rest ih =>
    simp only [GetPluginConfigs.loop]
    rw [GetPluginConfigMap_fst]
    have hrest : ¬ ∃ d' ∈ rest, ∃ cfg, (GetPluginConfigMap g).2.pluginConfigs.find d' = some cfg ∧
        cfg.toggle_config.find k = some Toggle.OFF := by
      rw [GetPluginConfigMap_snd]
      rintro ⟨d', hd', cfg, hcfg, hoff⟩
      exact h ⟨d', List.mem_cons_of_mem _ hd', cfg, hcfg, hoff⟩
    cases hfind : g.pluginConfigs.find d with
    | none =>
      simp only []
      exact ih _ _ hrest
    | some cur =>
      simp only []
      rw [ih _ _ hrest, GetPluginConfigs.body_toggle]
      have hc : ¬ cur.toggle_config.find k = some Toggle.OFF :=
        fun hc => h ⟨d, List.mem_cons_self _ _, cur, hfind, hc⟩
      simp [hc]

theorem GetPluginConfigs.loop_pruning (S : List String) (g : Globals Opt)
    (ret : ConfigsList) :
    (GetPluginConfigs.loop S g ret).1.disable_model_pruning = true ↔
      (ret.disable_model_pruning = true ∨
        ∃ d ∈ S, ∃ cfg, g.pluginConfigs.find d = some cfg ∧
          cfg.disable_model_pruning = true) := by
  induction S generalizing g ret with
  | nil => simp [GetPluginConfigs.loop]
  | cons d rest ih =>
    simp only [GetPluginConfigs.loop]
    rw [GetPluginConfigMap_fst]
    cases hfind : g.pluginConfigs.find d with
    | none =>
      simp only []
      rw [ih, GetPluginConfigMap_snd]
      constructor
      · rintro (h | ⟨d', hd', cfg, hcfg, hp⟩)
        · exact Or.inl h
        · exact Or.inr ⟨d', List.mem_cons_of_mem _ hd', cfg, hcfg, hp⟩
      · rintro (h | ⟨d', hd', cfg, hcfg, hp⟩)
        · exact Or.inl h
        · rcases List.mem_cons.mp hd' with rfl | hmem
          · rw [hfind] at hcfg; cases hcfg
          · exact Or.inr ⟨d', hmem, cfg, hcfg, hp⟩
    | some cur =>
      simp only []
      rw [ih, GetPluginConfigMap_snd, GetPluginConfigs.body_pruning]
      constructor
      · rintro (h | ⟨d', hd', cfg, hcfg, hp⟩)
        · rcases Bool.or_eq_true _ _ ▸ h with hc | hr
          · exact Or.inr ⟨d, List.mem_cons_self _ _, cur, hfind, hc⟩
          · exact Or.inl hr
        · exact Or.inr ⟨d', List.mem_cons_of_mem _ hd', cfg, hcfg, hp⟩
      · rintro (h | ⟨d', hd', cfg, hcfg, hp⟩)
        · left; simp [h]
        · rcases List.mem_cons.mp hd' with rfl | hmem
          · rw [hfind] at hcfg
            cases hcfg
            left; simp [hp]
          · exact Or.inr ⟨d', hmem, cfg, hcfg, hp⟩

end merge

/-! ## Claims about `GetPluginConfigs` -/

/-- C1: with plugin defaults in use, the merged config maps a pass key `k` of the 17-key
set to OFF exactly when some device type of `S` has a registered ConfigsList whose value
for `k` is OFF, and to ON otherwise. (The premise that the stored ConfigsLists have the
full key set is not needed.) With "X" registered with pruning disabled and all passes ON
and "Y" with remapping OFF, the merge for {"X", "Y"} has pruning disabled, remapping OFF
and every other pass ON. -/
theorem GetPluginConfigs_toggle_sticky_off {Opt : Type} (g : Globals Opt)
    (S : List String) (k : String) (hk : k ∈ passNames) :
    ((GetPluginConfigs g true S).1.toggle_config.find k = some Toggle.OFF ↔
      ∃ d ∈ S, ∃ cfg, g.pluginConfigs.find d = some cfg ∧
        cfg.toggle_config.find k = some Toggle.OFF) ∧
    ((¬ ∃ d ∈ S, ∃ cfg, g.pluginConfigs.find d = some cfg ∧
        cfg.toggle_config.find k = some Toggle.OFF) →
      (GetPluginConfigs g true S).1.toggle_config.find k = some Toggle.ON) ∧
    ((GetPluginConfigs stateXY true ["X", "Y"]).1.disable_model_pruning = true ∧
      ∀ p ∈ passNames, (GetPluginConfigs stateXY true ["X", "Y"]).1.toggle_config.find p =
        some (if p = "remapping" then Toggle.OFF else Toggle.ON)) := by
  have hdef : default_plugin_configs.toggle_config.find k = some Toggle.ON := by
    revert k
    decide
  have hrun : (GetPluginConfigs g true S).1 =
      (GetPluginConfigs.loop S g default_plugin_configs).1 := by
    simp [GetPluginConfigs]
  rw [hrun]
  refine ⟨⟨fun hoff => ?_, fun hex => ?_⟩, fun hno => ?_, by decide⟩
  · by_contra hno
    rw [GetPluginConfigs.loop_toggle_keep S g _ k hno, hdef] at hoff
    cases hoff
  · exact GetPluginConfigs.loop_toggle_off S g _ k (Or.inr hex)
  · rw [GetPluginConfigs.loop_toggle_keep S g _ k hno, hdef]

/-- Witness for C1: devices "X" (all passes ON) and "Y" (remapping OFF), key
"remapping". -/
theorem GetPluginConfigs_toggle_sticky_off_witness :
    "remapping" ∈ passNames ∧
    (((GetPluginConfigs stateXY true ["X", "Y"]).1.toggle_config.find "remapping" =
        some Toggle.OFF ↔
      ∃ d ∈ ["X", "Y"], ∃ cfg, stateXY.pluginConfigs.find d = some cfg ∧
        cfg.toggle_config.find "remapping" = some Toggle.OFF) ∧
    ((¬ ∃ d ∈ ["X", "Y"], ∃ cfg, stateXY.pluginConfigs.find d = some cfg ∧
        cfg.toggle_config.find "remapping" = some Toggle.OFF) →
      (GetPluginConfigs stateXY true ["X", "Y"]).1.toggle_config.find "remapping" =
        some Toggle.ON) ∧
    ((GetPluginConfigs stateXY true ["X", "Y"]).1.disable_model_pruning = true ∧
      ∀ p ∈ passNames, (GetPluginConfigs stateXY true ["X", "Y"]).1.toggle_config.find p =
        some (if p = "remapping" then Toggle.OFF else Toggle.ON))) :=
  ⟨by decide, GetPluginConfigs_toggle_sticky_off stateXY ["X", "Y"] "remapping" (by decide)⟩

/-- C2: with plugin defaults in use, `disable_model_pruning` of the merged config is true
exactly when some device type of `S` has a registered ConfigsList with
`disable_model_pruning = true`; a list `T` with the same members, in whatever order,
gives the same value. -/
theorem GetPluginConfigs_pruning_sticky {Opt : Type} (g : Globals Opt)
    (S T : List String) (hST : ∀ d, d ∈ S ↔ d ∈ T) :
    ((GetPluginConfigs g true S).1.disable_model_pruning = true ↔
      ∃ d ∈ S, ∃ cfg, g.pluginConfigs.find d = some cfg ∧
        cfg.disable_model_pruning = true) ∧
    (GetPluginConfigs g true T).1.disable_model_pruning =
      (GetPluginConfigs g true S).1.disable_model_pruning := by
  have hrun : ∀ L : List String, ((GetPluginConfigs g true L).1.disable_model_pruning = true ↔
      ∃ d ∈ L, ∃ cfg, g.pluginConfigs.find d = some cfg ∧
        cfg.disable_model_pruning = true) := by
    intro L
    have h := GetPluginConfigs.loop_pruning L g default_plugin_configs
    simpa [GetPluginConfigs, default_plugin_configs] using h
  refine ⟨hrun S, ?_⟩
  rw [Bool.eq_iff_iff, hrun S, hrun T]
  constructor
  · rintro ⟨d, hd, rest⟩
    exact ⟨d, (hST d).mpr hd, rest⟩
  · rintro ⟨d, hd, rest⟩
    exact ⟨d, (hST d).mp hd, rest⟩

/-- Witness for C2: the device types "X" and "Y" visited in both orders. -/
theorem GetPluginConfigs_pruning_sticky_witness :
    (∀ d, d ∈ ["X", "Y"] ↔ d ∈ ["Y", "X"]) ∧
    (((GetPluginConfigs stateXY true ["X", "Y"]).1.disable_model_pruning = true ↔
      ∃ d ∈ ["X", "Y"], ∃ cfg, stateXY.pluginConfigs.find d = some cfg ∧
        cfg.disable_model_pruning = true) ∧
    (GetPluginConfigs stateXY true ["Y", "X"]).1.disable_model_pruning =
      (GetPluginConfigs stateXY true ["X", "Y"]).1.disable_model_pruning) :=
  ⟨fun d => by simp [or_comm],
    GetPluginConfigs_pruning_sticky stateXY ["X", "Y"] ["Y", "X"] (fun d => by simp [or_comm])⟩

/-- C3: without plugin defaults `GetPluginConfigs` returns the process-wide default
ConfigsList, whatever is registered and whatever the device types are; the value is also
equal to the default under `operator==`. -/
theorem GetPluginConfigs_without_plugins {Opt : Type} (g : Globals Opt)
    (S : List String) :
    (GetPluginConfigs g false S).1 = default_plugin_configs ∧
    ((GetPluginConfigs g false S).1.eq default_plugin_configs) = true := by
  have h : (GetPluginConfigs g false S).1 = default_plugin_configs := by
    simp [GetPluginConfigs]
  refine ⟨h, ?_⟩
  rw [h]
  decide

/-! ## Equality of ConfigsLists and the conflict check -/

theorem ConfigsList.eq_iff (a b : ConfigsList) :
    a.eq b = true ↔
      a.disable_model_pruning = b.disable_model_pruning ∧
        ∀ k, a.toggle_config.find k = b.toggle_config.find k := by
  unfold ConfigsList.eq
  simp only [Bool.and_eq_true, List.all_eq_true, beq_iff_eq]
  constructor
  · rintro ⟨⟨hp, hab⟩, hba⟩
    refine ⟨hp, fun k => ?_⟩
    by_cases ha : k ∈ a.toggle_config.keys
    · obtain ⟨p, hpa, rfl⟩ := List.mem_map.mp ha
      exact (hab p hpa).symm
    · by_cases hb : k ∈ b.toggle_config.keys
      · obtain ⟨p, hpb, rfl⟩ := List.mem_map.mp hb
        exact hba p hpb
      · rw [(UMap.find_eq_none_iff _ _).mpr ha, (UMap.find_eq_none_iff _ _).mpr hb]
  · rintro ⟨hp, hk⟩
    exact ⟨⟨hp, fun p _ => (hk p.1).symm⟩, fun p _ => hk p.1⟩

theorem ConfigsList.eq_refl (a : ConfigsList) : a.eq a = true :=
  (ConfigsList.eq_iff a a).mpr ⟨rfl, fun _ => rfl⟩

theorem ConfigsList.eq_symm {a b : ConfigsList} (h : a.eq b = true) : b.eq a = true := by
  rw [ConfigsList.eq_iff] at h ⊢
  exact ⟨h.1.symm, fun k => (h.2 k).symm⟩

theorem ConfigsList.eq_trans {a b c : ConfigsList} (hab : a.eq b = true)
    (hbc : b.eq c = true) : a.eq c = true := by
  rw [ConfigsList.eq_iff] at hab hbc ⊢
  exact ⟨hab.1.trans hbc.1, fun k => (hab.2 k).trans (hbc.2 k)⟩

section conflict

variable {Opt : Type}

theorem PrintPluginConfigsIfConflict.check_some (S : List String) (g : Globals Opt)
    (pc : ConfigsList) :
    (PrintPluginConfigsIfConflict.check S g (some pc)).1 = true ↔
      ∃ d ∈ S, ∃ c, g.pluginConfigs.find d = some c ∧ pc.eq c = false := by
  induction S generalizing g with
  | nil => simp [PrintPluginConfigsIfConflict.check]
  | cons d rest ih =>
    simp only [PrintPluginConfigsIfConflict.check]
    rw [GetPluginConfigMap_fst]
    cases hfind : g.pluginConfigs.find d with
    | none =>
      simp only []
      rw [ih, GetPluginConfigMap_snd]
      constructor
      · rintro ⟨d', hd', c, hc, hne⟩
        exact ⟨d', List.mem_cons_of_mem _ hd', c, hc, hne⟩
      · rintro ⟨d', hd', c, hc, hne⟩
        rcases List.mem_cons.mp hd' with rfl | hmem
        · rw [hfind] at hc; cases hc
        · exact ⟨d', hmem, c, hc, hne⟩
    | some cur =>
      simp only []
      cases heq : pc.eq cur with
      | false =>
        simp only [Bool.not_false, if_true, true_iff]
        exact ⟨d, List.mem_cons_self _ _, cur, hfind, heq⟩
      | true =>
        simp only [Bool.not_true, Bool.false_eq_true, if_false]
        rw [ih, GetPluginConfigMap_snd]
        constructor
        · rintro ⟨d', hd', c, hc, hne⟩
          exact ⟨d', List.mem_cons_of_mem _ hd', c, hc, hne⟩
        · rintro ⟨d', hd', c, hc, hne⟩
          rcases List.mem_cons.mp hd' with rfl | hmem
          · rw [hfind] at hc
            cases hc
            rw [heq] at hne; cases hne
          · exact ⟨d', hmem, c, hc, hne⟩

theorem PrintPluginConfigsIfConflict.check_none (S : List String) (g : Globals Opt) :
    (PrintPluginConfigsIfConflict.check S g none).1 = true ↔
      ∃ d1 ∈ S, ∃ d2 ∈ S, ∃ c1 c2, g.pluginConfigs.find d1 = some c1 ∧
        g.pluginConfigs.find d2 = some c2 ∧ c1.eq c2 = false := by
  induction S generalizing g with
  | nil => simp [PrintPluginConfigsIfConflict.check]
  | cons d rest ih =>
    simp only [PrintPluginConfigsIfConflict.check]
    rw [GetPluginConfigMap_fst]
    cases hfind : g.pluginConfigs.find d with
    | none =>
      simp only []
      rw [ih, GetPluginConfigMap_snd]
      constructor
      · rintro ⟨d1, h1, d2, h2, c1, c2, hc1, hc2, hne⟩
        exact ⟨d1, List.mem_cons_of_mem _ h1, d2, List.mem_cons_of_mem _ h2, c1, c2,
          hc1, hc2, hne⟩
      · rintro ⟨d1, h1, d2, h2, c1, c2, hc1, hc2, hne⟩
        rcases List.mem_cons.mp h1 with rfl | hm1
        · rw [hfind] at hc1; cases hc1
        · rcases List.mem_cons.mp h2 with rfl | hm2
          · rw [hfind] at hc2; cases hc2
          · exact ⟨d1, hm1, d2, hm2, c1, c2, hc1, hc2, hne⟩
    | some cur =>
      simp only []
      rw [PrintPluginConfigsIfConflict.check_some, GetPluginConfigMap_snd]
      constructor
      · rintro ⟨d', hd', c, hc, hne⟩
        exact ⟨d, List.mem_cons_self _ _, d', List.mem_cons_of_mem _ hd', cur, c,
          hfind, hc, hne⟩
      · rintro ⟨d1, h1, d2, h2, c1, c2, hc1, hc2, hne⟩
        by_contra hall
        have hcur : ∀ d' ∈ d :: rest, ∀ c, g.pluginConfigs.find d' = some c →
            cur.eq c = true := by
          intro d' hd' c hc
          rcases List.mem_cons.mp hd' with rfl | hmem
          · rw [hfind] at hc
            cases hc
            exact ConfigsList.eq_refl _
          · by_contra hne'
            exact hall ⟨d', hmem, c, hc, by simpa using hne'⟩
        have h12 : c1.eq c2 = true :=
          ConfigsList.eq_trans (ConfigsList.eq_symm (hcur d1 h1 c1 hc1)) (hcur d2 h2 c2 hc2)
        rw [h12] at hne
        cases hne

theorem PrintPluginConfigsIfConflict.dump_length (S : List String) (g : Globals Opt)
    (out : List String) :
    out.length ≤ (PrintPluginConfigsIfConflict.dump S g out).1.length := by
  induction S generalizing g out with
  | nil => simp [PrintPluginConfigsIfConflict.dump]
  | cons d rest ih =>
    simp only [PrintPluginConfigsIfConflict.dump]
    cases (GetPluginConfigMap g).1.find d with
    | none => exact ih _ _
    | some cur =>
      refine Nat.le_trans ?_ (ih _ _)
      simp

theorem PrintPluginConfigsIfConflict_logs_iff (g : Globals Opt) (S : List String) :
    (PrintPluginConfigsIfConflict g S).1 ≠ [] ↔
      (PrintPluginConfigsIfConflict.check S g none).1 = true := by
  unfold PrintPluginConfigsIfConflict
  simp only []
  by_cases hflag : (PrintPluginConfigsIfConflict.check S g none).1 = true
  · have hcond : ¬ (!(PrintPluginConfigsIfConflict.check S g none).1) = true := by
      simp [hflag]
    rw [if_neg hcond]
    refine ⟨fun _ => hflag, fun _ hnil => ?_⟩
    have hlen := PrintPluginConfigsIfConflict.dump_length S
      (PrintPluginConfigsIfConflict.check S g none).2
      ["Plugins have conflicit configs. Potential performance regression may happen."]
    rw [hnil] at hlen
    simp at hlen
  · have hcond : (!(PrintPluginConfigsIfConflict.check S g none).1) = true := by
      simpa using hflag
    rw [if_pos hcond]
    exact ⟨fun h => absurd rfl h, fun h => absurd h hflag⟩

end conflict

/-- C4: the conflict flag of `PrintPluginConfigsIfConflict` (the function logs its
warnings exactly when the flag is set) is true exactly when two device types of `S` are
both registered with ConfigsLists that are not equal; it is false unless `S` holds two
distinct registered device types; it is true for "X" (pruning disabled, all ON) with "Y"
(pruning enabled, remapping OFF) and false for "X" alone. -/
theorem PrintPluginConfigsIfConflict_conflict_iff {Opt : Type} (g : Globals Opt)
    (S : List String) :
    ((PrintPluginConfigsIfConflict g S).1 ≠ [] ↔
      (PrintPluginConfigsIfConflict.check S g none).1 = true) ∧
    ((PrintPluginConfigsIfConflict.check S g none).1 = true ↔
      ∃ d1 ∈ S, ∃ d2 ∈ S, ∃ c1 c2, g.pluginConfigs.find d1 = some c1 ∧
        g.pluginConfigs.find d2 = some c2 ∧ c1.eq c2 = false) ∧
    ((PrintPluginConfigsIfConflict.check S g none).1 = false ∨
      ∃ d1 ∈ S, ∃ d2 ∈ S, d1 ≠ d2 ∧ (g.pluginConfigs.find d1).isSome = true ∧
        (g.pluginConfigs.find d2).isSome = true) ∧
    (PrintPluginConfigsIfConflict.check ["X", "Y"] stateXY none).1 = true ∧
    (PrintPluginConfigsIfConflict.check ["X"] stateXY none).1 = false := by
  refine ⟨PrintPluginConfigsIfConflict_logs_iff g S,
    PrintPluginConfigsIfConflict.check_none S g, ?_, by decide, by decide⟩
  cases hflag : (PrintPluginConfigsIfConflict.check S g none).1 with
  | false => exact Or.inl rfl
  | true =>
    right
    obtain ⟨d1, h1, d2, h2, c1, c2, hc1, hc2, hne⟩ :=
      (PrintPluginConfigsIfConflict.check_none S g).mp hflag
    refine ⟨d1, h1, d2, h2, ?_, by simp [hc1], by simp [hc2]⟩
    rintro rfl
    rw [hc1] at hc2
    cases hc2
    rw [ConfigsList.eq_refl] at hne
    cases hne

/-! ## `IsConfigsConflict` -/

theorem UMap.find_index_snd {V : Type} (dflt : V) (m : UMap V) (k' k : String) :
    (UMap.index dflt m k').2.find k = m.find k ∨
      (m.find k = none ∧ (UMap.index dflt m k').2.find k = some dflt) := by
  unfold UMap.index
  cases hk' : m.find k' with
  | some v => exact Or.inl rfl
  | none =>
    simp only [UMap.find_append]
    cases hk : m.find k with
    | some v => exact Or.inl rfl
    | none =>
      by_cases h : k' = k
      · right; simp [UMap.find, h]
      · left; simp [UMap.find, h]

theorem UMap.index_fst_of_find {V : Type} (dflt : V) (m : UMap V) (k : String) (v : V)
    (h : m.find k = some v) : (UMap.index dflt m k).1 = v := by
  simp [UMap.index, h]

theorem IsConfigsConflict.loop_true (entries : List (String × Toggle))
    (user plugin : UMap Toggle) (k : String)
    (hkeys : ∀ p ∈ entries, (user.find p.1).isSome = true)
    (hk : k ∈ entries.map Prod.fst)
    (hu : user.find k = some Toggle.ON) (hp : plugin.find k = some Toggle.OFF) :
    (IsConfigsConflict.loop entries user plugin).1 = some true := by
  induction entries generalizing plugin with
  | nil => simp at hk
  | cons pair rest ih =>
    have hrest : ∀ p ∈ rest, (user.find p.1).isSome = true :=
      fun p hp => hkeys p (List.mem_cons_of_mem _ hp)
    obtain ⟨v, hv⟩ := Option.isSome_iff_exists.mp (hkeys pair (List.mem_cons_self _ _))
    simp only [IsConfigsConflict.loop, UMap.index_of_find _ _ _ _ hv]
    by_cases hon : v = Toggle.ON
    · simp only [hon, if_true]
      by_cases hoff : (UMap.index Toggle.DEFAULT plugin pair.1).1 = Toggle.OFF
      · simp [hoff]
      · simp only [hoff, if_false]
        have hne : k ≠ pair.1 := by
          rintro rfl
          exact hoff (UMap.index_fst_of_find _ _ _ _ hp)
        have hk' : k ∈ rest.map Prod.fst := by
          simpa [hne] using hk
        apply ih _ hrest hk'
        rcases UMap.find_index_snd Toggle.DEFAULT plugin pair.1 k with h | ⟨h, _⟩
        · rw [h, hp]
        · rw [hp] at h; cases h
    · simp only [hon, if_false]
      have hne : k ≠ pair.1 := by
        rintro rfl
        rw [hu] at hv
        cases hv
        exact hon rfl
      have hk' : k ∈ rest.map Prod.fst := by
        simpa [hne] using hk
      exact ih _ hrest hk' hp

theorem IsConfigsConflict.loop_none (entries : List (String × Toggle))
    (user plugin : UMap Toggle)
    (hkeys : ∀ p ∈ entries, (user.find p.1).isSome = true)
    (hno : ∀ k, user.find k = some Toggle.ON → plugin.find k ≠ some Toggle.OFF) :
    (IsConfigsConflict.loop entries user plugin).1 = none := by
  induction entries generalizing plugin with
  | nil => simp [IsConfigsConflict.loop]
  | cons pair rest ih =>
    have hrest : ∀ p ∈ rest, (user.find p.1).isSome = true :=
      fun p hp => hkeys p (List.mem_cons_of_mem _ hp)
    obtain ⟨v, hv⟩ := Option.isSome_iff_exists.mp (hkeys pair (List.mem_cons_self _ _))
    simp only [IsConfigsConflict.loop, UMap.index_of_find _ _ _ _ hv]
    by_cases hon : v = Toggle.ON
    · subst hon
      simp only [if_true]
      have hoff : ¬ (UMap.index Toggle.DEFAULT plugin pair.1).1 = Toggle.OFF := by
        intro hoff
        unfold UMap.index at hoff
        cases hpf : plugin.find pair.1 with
        | none => simp [hpf] at hoff
        | some w =>
          simp only [hpf] at hoff
          exact hno pair.1 hv (by rw [hpf, hoff])
      simp only [hoff, if_false]
      apply ih _ hrest
      intro k hk hkoff
      rcases UMap.find_index_snd Toggle.DEFAULT plugin pair.1 k with h | ⟨_, h⟩
      · exact hno k hk (h ▸ hkoff)
      · rw [h] at hkoff; cases hkoff
    · simp only [hon, if_false]
      exact ih _ hrest hno

/-- C5: for a `plugin_config` that is not equal to the process-wide default,
`IsConfigsConflict` returns true whenever the two configs disagree on
`disable_model_pruning` and whenever some pass is ON in `user_config` and OFF in
`plugin_config`. -/
theorem IsConfigsConflict_true_on_disagreement (user_config plugin_config : ConfigsList)
    (hnd : plugin_config.eq default_plugin_configs = false)
    (h : user_config.disable_model_pruning ≠ plugin_config.disable_model_pruning ∨
      ∃ k, user_config.toggle_config.find k = some Toggle.ON ∧
        plugin_config.toggle_config.find k = some Toggle.OFF) :
    (IsConfigsConflict user_config plugin_config).1 = some true := by
  unfold IsConfigsConflict
  simp only [hnd, Bool.false_eq_true, if_false]
  by_cases hp : user_config.disable_model_pruning = plugin_config.disable_model_pruning
  · rcases h with h | ⟨k, hu, hpl⟩
    · exact absurd hp h
    · have hk : k ∈ user_config.toggle_config.keys := by
        rw [← UMap.find_isSome_iff, hu]; rfl
      simp only [hp, bne_self_eq_false, Bool.false_eq_true, if_false]
      exact IsConfigsConflict.loop_true _ _ _ k
        (fun p hp => UMap.find_isSome_of_mem _ p hp) hk hu hpl
  · have hb : (user_config.disable_model_pruning != plugin_config.disable_model_pruning)
        = true := by simpa using hp
    simp [hb]

/-- Witness for C5: the user has remapping ON (the default), the plugin has remapping
OFF. -/
theorem IsConfigsConflict_true_on_disagreement_witness :
    remappingOff.eq default_plugin_configs = false ∧
    (default_plugin_configs.disable_model_pruning ≠ remappingOff.disable_model_pruning ∨
      ∃ k, default_plugin_configs.toggle_config.find k = some Toggle.ON ∧
        remappingOff.toggle_config.find k = some Toggle.OFF) ∧
    (IsConfigsConflict default_plugin_configs remappingOff).1 = some true :=
  ⟨by decide, Or.inr ⟨"remapping", by decide, by decide⟩,
    IsConfigsConflict_true_on_disagreement default_plugin_configs remappingOff (by decide)
      (Or.inr ⟨"remapping", by decide, by decide⟩)⟩

/-- C6: when `plugin_config` is not equal to the default, the two configs agree on
`disable_model_pruning` and no pass is ON in `user_config` while OFF in `plugin_config`,
control reaches the closing brace of `IsConfigsConflict` and no value is returned: the
result is not the boolean false. -/
theorem IsConfigsConflict_falls_through (user_config plugin_config : ConfigsList)
    (hnd : plugin_config.eq default_plugin_configs = false)
    (hp : user_config.disable_model_pruning = plugin_config.disable_model_pruning)
    (hno : ∀ k, ¬ (user_config.toggle_config.find k = some Toggle.ON ∧
      plugin_config.toggle_config.find k = some Toggle.OFF)) :
    (IsConfigsConflict user_config plugin_config).1 = none := by
  unfold IsConfigsConflict
  simp only [hnd, Bool.false_eq_true, if_false, hp, bne_self_eq_false]
  exact IsConfigsConflict.loop_none _ _ _ (fun p hp => UMap.find_isSome_of_mem _ p hp)
    (fun k hu hoff => hno k ⟨hu, hoff⟩)

/-- Failing input for C6: both configs have the 17 keys and pruning disabled; the user
has remapping OFF, the plugin has every pass ON. -/
theorem IsConfigsConflict_falls_through_witness :
    HasFullKeySet configARemappingOff.toggle_config ∧
    HasFullKeySet configA.toggle_config ∧
    configARemappingOff.toggle_config.find "remapping" = some Toggle.OFF ∧
    configA.toggle_config.find "remapping" = some Toggle.ON ∧
    configA.eq default_plugin_configs = false ∧
    configARemappingOff.disable_model_pruning = configA.disable_model_pruning ∧
    (∀ k, ¬ (configARemappingOff.toggle_config.find k = some Toggle.ON ∧
      configA.toggle_config.find k = some Toggle.OFF)) ∧
    (IsConfigsConflict configARemappingOff configA).1 = none :=
  have hno : ∀ k, ¬ (configARemappingOff.toggle_config.find k = some Toggle.ON ∧
      configA.toggle_config.find k = some Toggle.OFF) := by
    intro k hk
    have hkeys : k ∈ configA.toggle_config.keys := by
      rw [← UMap.find_isSome_iff, hk.2]; rfl
    have hall : ∀ k ∈ configA.toggle_config.keys,
        configA.toggle_config.find k ≠ some Toggle.OFF := by decide
    exact hall k hkeys hk.2
  have hu : configARemappingOff.toggle_config.keys = passNames := by decide
  have hc : configA.toggle_config.keys = passNames := by decide
  ⟨fun k => by rw [hu], fun k => by rw [hc], by decide, by decide, by decide, by decide, hno,
    IsConfigsConflict_falls_through configARemappingOff configA (by decide) (by decide) hno⟩

/-- C7: `IsConfigsConflict` returns false whenever `plugin_config` equals the
process-wide default, whatever `user_config` is; in particular for the default against
itself. -/
theorem IsConfigsConflict_false_on_default (user_config plugin_config : ConfigsList)
    (h : plugin_config.eq default_plugin_configs = true) :
    (IsConfigsConflict user_config plugin_config).1 = some false ∧
    (IsConfigsConflict user_config default_plugin_configs).1 = some false ∧
    (IsConfigsConflict default_plugin_configs default_plugin_configs).1 = some false := by
  have hd : default_plugin_configs.eq default_plugin_configs = true :=
    ConfigsList.eq_refl _
  refine ⟨?_, ?_, ?_⟩
  · simp [IsConfigsConflict, h]
  · simp [IsConfigsConflict, hd]
  · simp [IsConfigsConflict, hd]

/-- Witness for C7: a user config with pruning disabled and remapping OFF against the
default as plugin config. -/
theorem IsConfigsConflict_false_on_default_witness :
    default_plugin_configs.eq default_plugin_configs = true ∧
    ((IsConfigsConflict configARemappingOff default_plugin_configs).1 = some false ∧
    (IsConfigsConflict configARemappingOff default_plugin_configs).1 = some false ∧
    (IsConfigsConflict default_plugin_configs default_plugin_configs).1 = some false) :=
  ⟨by decide,
    IsConfigsConflict_false_on_default configARemappingOff default_plugin_configs (by decide)⟩

/-! ## Registration -/

section registration

variable {Opt : Type}

theorem Globals.SameContent.refl (g : Globals Opt) : g.SameContent g :=
  ⟨rfl, rfl, rfl⟩

theorem Globals.SameContent.trans {g g1 g2 : Globals Opt} (h1 : g.SameContent g1)
    (h2 : g1.SameContent g2) : g.SameContent g2 :=
  ⟨h2.1.trans h1.1, h2.2.1.trans h1.2.1, h2.2.2.trans h1.2.2⟩

theorem GetRegistrationMap_same (g : Globals Opt) :
    g.SameContent (GetRegistrationMap g).2 := by
  unfold GetRegistrationMap Globals.SameContent Globals.builtins Globals.pluginFactories
    Globals.pluginConfigs
  cases h : g.registered_optimizers <;> simp [h]

theorem GetPluginRegistrationMap_same (g : Globals Opt) :
    g.SameContent (GetPluginRegistrationMap g).2 := by
  unfold GetPluginRegistrationMap Globals.SameContent Globals.builtins
    Globals.pluginFactories Globals.pluginConfigs
  cases h : g.registered_plugin_optimizers <;> simp [h]

theorem GetPluginConfigMap_same (g : Globals Opt) :
    g.SameContent (GetPluginConfigMap g).2 := by
  unfold GetPluginConfigMap Globals.SameContent Globals.builtins
    Globals.pluginFactories Globals.pluginConfigs
  cases h : g.plugin_config_map <;> simp [h]

theorem PrintPluginConfigsIfConflict.check_same (S : List String) (g : Globals Opt)
    (pc : Option ConfigsList) :
    g.SameContent (PrintPluginConfigsIfConflict.check S g pc).2 := by
  induction S generalizing g pc with
  | nil => exact Globals.SameContent.refl g
  | cons d rest ih =>
    simp only [PrintPluginConfigsIfConflict.check]
    cases (GetPluginConfigMap g).1.find d with
    | none => exact (GetPluginConfigMap_same g).trans (ih _ _)
    | some cur =>
      cases pc with
      | none => exact (GetPluginConfigMap_same g).trans (ih _ _)
      | some c =>
        simp only []
        split
        · exact GetPluginConfigMap_same g
        · exact (GetPluginConfigMap_same g).trans (ih _ _)

theorem PrintPluginConfigsIfConflict.dump_same (S : List String) (g : Globals Opt)
    (out : List String) :
    g.SameContent (PrintPluginConfigsIfConflict.dump S g out).2 := by
  induction S generalizing g out with
  | nil => exact Globals.SameContent.refl g
  | cons d rest ih =>
    simp only [PrintPluginConfigsIfConflict.dump]
    cases (GetPluginConfigMap g).1.find d with
    | none => exact (GetPluginConfigMap_same g).trans (ih _ _)
    | some cur => exact (GetPluginConfigMap_same g).trans (ih _ _)

theorem PrintPluginConfigsIfConflict_same (g : Globals Opt) (S : List String) :
    g.SameContent (PrintPluginConfigsIfConflict g S).2 := by
  unfold PrintPluginConfigsIfConflict
  simp only []
  split
  · exact PrintPluginConfigsIfConflict.check_same S g none
  · exact (PrintPluginConfigsIfConflict.check_same S g none).trans
      (PrintPluginConfigsIfConflict.dump_same S _ _)

theorem GetPluginConfigs.loop_same (S : List String) (g : Globals Opt)
    (ret : ConfigsList) : g.SameContent (GetPluginConfigs.loop S g ret).2 := by
  induction S generalizing g ret with
  | nil => exact Globals.SameContent.refl g
  | cons d rest ih =>
    simp only [GetPluginConfigs.loop]
    cases (GetPluginConfigMap g).1.find d with
    | none => exact (GetPluginConfigMap_same g).trans (ih _ _)
    | some cur => exact (GetPluginConfigMap_same g).trans (ih _ _)

theorem GetPluginConfigs_same (g : Globals Opt) (b : Bool) (S : List String) :
    g.SameContent (GetPluginConfigs g b S).2 := by
  unfold GetPluginConfigs
  split
  · exact Globals.SameContent.refl g
  · exact GetPluginConfigs.loop_same S g _

theorem RegisterOptimizerOrDie_plugin_maps {g g1 : Globals Opt} {c : Creator Opt}
    {name : String} (h : RegisterOptimizerOrDie g c name = Except.ok g1) :
    g1.pluginFactories = g.pluginFactories ∧ g1.pluginConfigs = g.pluginConfigs := by
  unfold RegisterOptimizerOrDie at h
  have hs := GetRegistrationMap_same g
  cases hf : (GetRegistrationMap g).1.find name with
  | some v => simp [hf] at h
  | none =>
    simp only [hf] at h
    injection h with h
    subst h
    exact ⟨hs.2.1, hs.2.2⟩

theorem RegisterPluginOptimizerOrDie_ok_iff (g : Globals Opt) (c : Creator Opt)
    (d : String) (configs : ConfigsList) :
    (∃ g1, RegisterPluginOptimizerOrDie g c d configs = Except.ok g1) ↔
      g.pluginConfigs.find d = none := by
  unfold RegisterPluginOptimizerOrDie UMap.insert
  simp only [GetPluginConfigMap_fst]
  cases hf : g.pluginConfigs.find d <;> simp

theorem RegisterPluginOptimizerOrDie_ok {g g1 : Globals Opt} {c : Creator Opt}
    {d : String} {configs : ConfigsList}
    (h : RegisterPluginOptimizerOrDie g c d configs = Except.ok g1) :
    g.pluginConfigs.find d = none ∧
    g1.pluginConfigs = g.pluginConfigs ++ [(d, configs)] ∧
    g1.pluginFactories = (g.pluginFactories.insert d c).1 ∧
    g1.builtins = g.builtins := by
  have hnone : g.pluginConfigs.find d = none :=
    (RegisterPluginOptimizerOrDie_ok_iff g c d configs).mp ⟨g1, h⟩
  unfold RegisterPluginOptimizerOrDie UMap.insert at h
  have hs := GetPluginConfigMap_same g
  simp only [GetPluginConfigMap_fst, hnone, Bool.not_true, Bool.false_eq_true, if_false] at h
  injection h with h
  subst h
  refine ⟨hnone, ?_, ?_, ?_⟩
  · have := (GetPluginRegistrationMap_same
      ({ (GetPluginConfigMap g).2 with
        plugin_config_map := some (g.pluginConfigs ++ [(d, configs)]) } : Globals Opt)).2.2
    simpa [Globals.pluginConfigs] using this
  · have h2 := hs.2.1
    simp only [Globals.pluginFactories, GetPluginRegistrationMap_fst] at h2 ⊢
    simp only [Option.getD_some]
    rw [← h2]
    rfl
  · have h2 := (GetPluginRegistrationMap_same
      ({ (GetPluginConfigMap g).2 with
        plugin_config_map := some (g.pluginConfigs ++ [(d, configs)]) } : Globals Opt)).1
    have h3 := hs.1
    simp only [Globals.builtins] at h2 h3 ⊢
    rw [← h3, ← h2]

end registration

section invariant

variable {Opt : Type}

theorem CreateByNameOrNull_same (g : Globals Opt) (name : String) :
    g.SameContent (CreateByNameOrNull g name).2 := by
  unfold CreateByNameOrNull
  simp only []
  split <;> exact GetRegistrationMap_same g

theorem GetRegisteredOptimizers_same (g : Globals Opt) :
    g.SameContent (GetRegisteredOptimizers g).2 :=
  GetRegistrationMap_same g

theorem CreateOptimizer_same (g : Globals Opt) (S : List String) :
    g.SameContent (CreateOptimizer g S).2 :=
  GetPluginRegistrationMap_same g

/-- In every reachable state the plugin factory map and the plugin config map list the
same device types, in the same order. -/
theorem Reachable.plugin_keys {g : Globals Opt} (h : Reachable g) :
    g.pluginFactories.keys = g.pluginConfigs.keys := by
  induction h with
  | start => rfl
  | registerOptimizer c name _ hreg ih =>
    obtain ⟨hf, hc⟩ := RegisterOptimizerOrDie_plugin_maps hreg
    rw [hf, hc, ih]
  | registerPlugin c d configs _ hreg ih =>
    obtain ⟨hnone, hc, hf, _⟩ := RegisterPluginOptimizerOrDie_ok hreg
    have hfnone : _ := (UMap.find_eq_none_iff _ d).mp hnone
    rw [← ih] at hfnone
    rw [hf, hc, UMap.keys_insert _ _ _ ((UMap.find_eq_none_iff _ d).mpr hfnone), ih]
    simp [UMap.keys]
  | createByName name _ ih =>
    obtain ⟨_, hf, hc⟩ := CreateByNameOrNull_same _ name
    rw [hf, hc, ih]
  | getRegistered _ ih =>
    obtain ⟨_, hf, hc⟩ := GetRegisteredOptimizers_same _
    rw [hf, hc, ih]
  | createOptimizer S _ ih =>
    obtain ⟨_, hf, hc⟩ := CreateOptimizer_same _ S
    rw [hf, hc, ih]
  | printConflict S _ ih =>
    obtain ⟨_, hf, hc⟩ := PrintPluginConfigsIfConflict_same _ S
    rw [hf, hc, ih]
  | getConfigs b S _ ih =>
    obtain ⟨_, hf, hc⟩ := GetPluginConfigs_same _ b S
    rw [hf, hc, ih]

theorem stateGpuCpu_reachable : Reachable stateGpuCpu :=
  Reachable.registerPlugin (fun _ => some "cpu-optimizer") "CPU" remappingOff
    (Reachable.registerPlugin (fun _ => some "gpu-optimizer") "GPU" configA Reachable.start
      (rfl : RegisterPluginOptimizerOrDie (Globals.init String) (fun _ => some "gpu-optimizer")
        "GPU" configA =
        Except.ok ⟨none, some [("GPU", fun _ => some "gpu-optimizer")], some [("GPU", configA)]⟩))
    (rfl : RegisterPluginOptimizerOrDie
        ⟨none, some [("GPU", fun _ => some "gpu-optimizer")], some [("GPU", configA)]⟩
        (fun _ => some "cpu-optimizer") "CPU" remappingOff = Except.ok stateGpuCpu)

end invariant

section builtin

variable {Opt : Type}

theorem RegisterOptimizerOrDie_of_some (g : Globals Opt) (c : Creator Opt) (name : String)
    (h : (g.builtins.find name).isSome = true) :
    ∃ msg, RegisterOptimizerOrDie g c name = Except.error msg := by
  obtain ⟨v, hv⟩ := Option.isSome_iff_exists.mp h
  unfold RegisterOptimizerOrDie
  simp only [GetRegistrationMap_fst, hv]
  exact ⟨_, rfl⟩

theorem RegisterOptimizerOrDie_of_none (g : Globals Opt) (c : Creator Opt) (name : String)
    (h : g.builtins.find name = none) :
    ∃ g1, RegisterOptimizerOrDie g c name = Except.ok g1 ∧
      g1.builtins = (g.builtins.insert name c).1 := by
  unfold RegisterOptimizerOrDie
  simp only [GetRegistrationMap_fst, h]
  exact ⟨_, rfl, rfl⟩

end builtin

/-- C8: in a reachable state `RegisterPluginOptimizerOrDie` aborts exactly when
`device_type` already has a factory in the plugin factory map; otherwise it succeeds and
afterwards the factory and the requested ConfigsList are stored under `device_type`. -/
theorem RegisterPluginOptimizerOrDie_fatal_iff {Opt : Type} (g : Globals Opt)
    (hr : Reachable g) (creator : Creator Opt) (device_type : String)
    (configs : ConfigsList) :
    ((∃ msg, RegisterPluginOptimizerOrDie g creator device_type configs =
        Except.error msg) ↔
      (g.pluginFactories.find device_type).isSome = true) ∧
    ((g.pluginFactories.find device_type).isSome = false →
      ∃ g1, RegisterPluginOptimizerOrDie g creator device_type configs = Except.ok g1 ∧
        g1.pluginFactories.find device_type = some creator ∧
        g1.pluginConfigs.find device_type = some configs) := by
  have hkeys := hr.plugin_keys
  have hsame : (g.pluginFactories.find device_type).isSome = true ↔
      (g.pluginConfigs.find device_type).isSome = true := by
    rw [UMap.find_isSome_iff, UMap.find_isSome_iff, hkeys]
  have hok := RegisterPluginOptimizerOrDie_ok_iff g creator device_type configs
  constructor
  · cases hR : RegisterPluginOptimizerOrDie g creator device_type configs with
    | error msg =>
      refine ⟨fun _ => ?_, fun _ => ⟨msg, rfl⟩⟩
      rw [hsame]
      cases hc : g.pluginConfigs.find device_type with
      | some v => rfl
      | none =>
        obtain ⟨g1, hg1⟩ := hok.mpr hc
        rw [hR] at hg1
        cases hg1
    | ok g1 =>
      have hc : g.pluginConfigs.find device_type = none := hok.mp ⟨g1, hR⟩
      constructor
      · rintro ⟨msg, hmsg⟩
        cases hmsg
      · intro hf
        rw [hsame, hc] at hf
        cases hf
  · intro hf
    have hfnone : g.pluginFactories.find device_type = none := by
      cases hfind : g.pluginFactories.find device_type with
      | none => rfl
      | some v => rw [hfind] at hf; cases hf
    have hc : g.pluginConfigs.find device_type = none := by
      cases hfind : g.pluginConfigs.find device_type with
      | none => rfl
      | some v =>
        have : (g.pluginFactories.find device_type).isSome = true := by
          rw [hsame, hfind]; rfl
        rw [hfnone] at this
        cases this
    obtain ⟨g1, hg1⟩ := hok.mpr hc
    obtain ⟨_, hcfg, hfac, _⟩ := RegisterPluginOptimizerOrDie_ok hg1
    refine ⟨g1, hg1, ?_, ?_⟩
    · rw [hfac]
      exact UMap.find_insert_self _ _ _ hfnone
    · rw [hcfg, UMap.find_append, hc]
      simp [UMap.find]

/-- Witness for C8: a second registration for "GPU" in the state reached by registering
"GPU" and then "CPU". -/
theorem RegisterPluginOptimizerOrDie_fatal_iff_witness :
    Reachable stateGpuCpu ∧
    (((∃ msg, RegisterPluginOptimizerOrDie stateGpuCpu (fun _ => some "other") "GPU"
        default_plugin_configs = Except.error msg) ↔
      (stateGpuCpu.pluginFactories.find "GPU").isSome = true) ∧
    ((stateGpuCpu.pluginFactories.find "GPU").isSome = false →
      ∃ g1, RegisterPluginOptimizerOrDie stateGpuCpu (fun _ => some "other") "GPU"
          default_plugin_configs = Except.ok g1 ∧
        g1.pluginFactories.find "GPU" = some (fun _ => some "other") ∧
        g1.pluginConfigs.find "GPU" = some default_plugin_configs)) :=
  ⟨stateGpuCpu_reachable,
    RegisterPluginOptimizerOrDie_fatal_iff stateGpuCpu stateGpuCpu_reachable
      (fun _ => some "other") "GPU" default_plugin_configs⟩

/-- C9: `RegisterOptimizerOrDie` aborts exactly when `name` is already in the
name → factory map; when it succeeds the map binds `name` to the creator and the binding
of any other name is unchanged; two registrations under distinct unused names both
succeed and both names are bound afterwards. -/
theorem RegisterOptimizerOrDie_fatal_iff {Opt : Type} (g : Globals Opt)
    (creator other_creator : Creator Opt) (name other : String) (hne : name ≠ other) :
    ((∃ msg, RegisterOptimizerOrDie g creator name = Except.error msg) ↔
      (g.builtins.find name).isSome = true) ∧
    (∀ g1, RegisterOptimizerOrDie g creator name = Except.ok g1 →
      g1.builtins.find name = some creator ∧
        g1.builtins.find other = g.builtins.find other) ∧
    (g.builtins.find name = none → g.builtins.find other = none →
      ∃ g1 g2, RegisterOptimizerOrDie g creator name = Except.ok g1 ∧
        RegisterOptimizerOrDie g1 other_creator other = Except.ok g2 ∧
        g2.builtins.find name = some creator ∧
        g2.builtins.find other = some other_creator) := by
  have hsucc : ∀ g1, RegisterOptimizerOrDie g creator name = Except.ok g1 →
      g.builtins.find name = none ∧ g1.builtins = (g.builtins.insert name creator).1 := by
    intro g1 hg1
    cases hf : g.builtins.find name with
    | some v =>
      obtain ⟨msg, hmsg⟩ := RegisterOptimizerOrDie_of_some g creator name (by rw [hf]; rfl)
      rw [hmsg] at hg1
      cases hg1
    | none =>
      obtain ⟨g1', hg1', hb⟩ := RegisterOptimizerOrDie_of_none g creator name hf
      rw [hg1'] at hg1
      cases hg1
      exact ⟨rfl, hb⟩
  refine ⟨⟨?_, RegisterOptimizerOrDie_of_some g creator name⟩, ?_, ?_⟩
  · rintro ⟨msg, hmsg⟩
    cases hf : g.builtins.find name with
    | some v => rfl
    | none =>
      obtain ⟨g1, hg1, _⟩ := RegisterOptimizerOrDie_of_none g creator name hf
      rw [hmsg] at hg1
      cases hg1
  · intro g1 hg1
    obtain ⟨hnone, hb⟩ := hsucc g1 hg1
    rw [hb]
    exact ⟨UMap.find_insert_self _ _ _ hnone, UMap.find_insert_of_ne _ _ _ _ hne⟩
  · intro hn ho
    obtain ⟨g1, hg1, hb1⟩ := RegisterOptimizerOrDie_of_none g creator name hn
    have ho1 : g1.builtins.find other = none := by
      rw [hb1, UMap.find_insert_of_ne _ _ _ _ hne, ho]
    obtain ⟨g2, hg2, hb2⟩ := RegisterOptimizerOrDie_of_none g1 other_creator other ho1
    refine ⟨g1, g2, hg1, hg2, ?_, ?_⟩
    · rw [hb2, UMap.find_insert_of_ne _ _ _ _ hne.symm, hb1]
      exact UMap.find_insert_self _ _ _ hn
    · rw [hb2]
      exact UMap.find_insert_self _ _ _ ho1

/-- Witness for C9: the names "a" and "b" registered at process start. -/
theorem RegisterOptimizerOrDie_fatal_iff_witness :
    "a" ≠ "b" ∧
    (((∃ msg, RegisterOptimizerOrDie (Globals.init String) (fun _ => some "A") "a" =
        Except.error msg) ↔
      ((Globals.init String).builtins.find "a").isSome = true) ∧
    (∀ g1, RegisterOptimizerOrDie (Globals.init String) (fun _ => some "A") "a" = Except.ok g1 →
      g1.builtins.find "a" = some (fun _ => some "A") ∧
        g1.builtins.find "b" = (Globals.init String).builtins.find "b") ∧
    ((Globals.init String).builtins.find "a" = none →
      (Globals.init String).builtins.find "b" = none →
      ∃ g1 g2, RegisterOptimizerOrDie (Globals.init String) (fun _ => some "A") "a" =
          Except.ok g1 ∧
        RegisterOptimizerOrDie g1 (fun _ => some "B") "b" = Except.ok g2 ∧
        g2.builtins.find "a" = some (fun _ => some "A") ∧
        g2.builtins.find "b" = some (fun _ => some "B"))) :=
  ⟨by decide,
    RegisterOptimizerOrDie_fatal_iff (Globals.init String) (fun _ => some "A") (fun _ => some "B")
      "a" "b" (by decide)⟩

/-! ## `CreateOptimizer` -/

section create

variable {Opt : Type}

theorem UMap.find_of_mem_of_nodup {V : Type} (m : UMap V) (hnd : m.keys.Nodup)
    (p : String × V) (hp : p ∈ m) : m.find p.1 = some p.2 := by
  induction m with
  | nil => cases hp
  | cons e rest ih =>
    obtain ⟨k0, v0⟩ := e
    simp only [UMap.keys, List.map_cons, List.nodup_cons] at hnd
    rcases List.mem_cons.mp hp with rfl | hmem
    · simp [UMap.find]
    · have hne : k0 ≠ p.1 := by
        rintro rfl
        exact hnd.1 (List.mem_map_of_mem Prod.fst hmem)
      simp only [UMap.find, hne, if_false]
      exact ih hnd.2 hmem

theorem CreateOptimizer.loop_eq (S : List String) (entries : List (String × Creator Opt))
    (acc : List (Option Opt)) :
    CreateOptimizer.loop S entries acc =
      acc ++ (entries.filter (fun p => decide (p.1 ∈ S))).map (fun p => p.2 ()) := by
  induction entries generalizing acc with
  | nil => simp [CreateOptimizer.loop]
  | cons it rest ih =>
    by_cases h : it.1 ∈ S
    · simp [CreateOptimizer.loop, h, ih]
    · simp [CreateOptimizer.loop, h, ih]

theorem CreateOptimizer_eq (g : Globals Opt) (S : List String) :
    (CreateOptimizer g S).1 =
      (g.pluginFactories.filter (fun p => decide (p.1 ∈ S))).map (fun p => p.2 ()) := by
  unfold CreateOptimizer
  simp [CreateOptimizer.loop_eq, GetPluginRegistrationMap_fst]

end create

/-- C10: for a plugin factory map whose keys are unique (as they are in every
`unordered_map`), `CreateOptimizer` returns one instance, made by that device type's own
factory, for each device type that is registered and in `S`, and nothing else; the length
of the result is the size of the intersection. It is empty for the empty `S`; with only "GPU"
and "CPU" registered it is the GPU instance alone for `S = {"GPU"}` and empty for
`S = {"TPU"}`. -/
theorem CreateOptimizer_matching {Opt : Type} (g : Globals Opt) (S : List String)
    (hnd : g.pluginFactories.keys.Nodup) :
    (∃ ds : List String, ds.Nodup ∧
      (∀ d, d ∈ ds ↔ d ∈ g.pluginFactories.keys ∧ d ∈ S) ∧
      List.Forall₂ (fun inst d => ∃ c, g.pluginFactories.find d = some c ∧ inst = c ())
        (CreateOptimizer g S).1 ds) ∧
    (CreateOptimizer g S).1.length = (g.pluginFactories.keys.toFinset ∩ S.toFinset).card ∧
    (CreateOptimizer g []).1 = [] ∧
    (CreateOptimizer stateGpuCpu ["GPU"]).1 = [some "gpu-optimizer"] ∧
    (CreateOptimizer stateGpuCpu ["TPU"]).1 = [] := by
  have hmem : ∀ d, d ∈ UMap.keys (g.pluginFactories.filter (fun p => decide (p.1 ∈ S))) ↔
      d ∈ g.pluginFactories.keys ∧ d ∈ S := by
    intro d
    simp only [UMap.keys, List.mem_map, List.mem_filter, decide_eq_true_eq]
    constructor
    · rintro ⟨p, ⟨hp, hS⟩, rfl⟩
      exact ⟨⟨p, hp, rfl⟩, hS⟩
    · rintro ⟨⟨p, hp, rfl⟩, hS⟩
      exact ⟨p, ⟨hp, hS⟩, rfl⟩
  have hndf : (UMap.keys (g.pluginFactories.filter (fun p => decide (p.1 ∈ S)))).Nodup :=
    hnd.sublist ((List.filter_sublist _).map Prod.fst)
  refine ⟨⟨_, hndf, hmem, ?_⟩, ?_, ?_, rfl, rfl⟩
  · rw [CreateOptimizer_eq]
    simp only [UMap.keys, List.forall₂_map_left_iff, List.forall₂_map_right_iff,
      List.forall₂_same]
    intro p hp
    exact ⟨p.2, UMap.find_of_mem_of_nodup _ hnd p (List.mem_of_mem_filter hp), rfl⟩
  · have hcard : (g.pluginFactories.keys.toFinset ∩ S.toFinset) =
        (UMap.keys (g.pluginFactories.filter (fun p => decide (p.1 ∈ S)))).toFinset := by
      ext d
      simp only [Finset.mem_inter, List.mem_toFinset, hmem]
    rw [hcard, List.toFinset_card_of_nodup hndf, CreateOptimizer_eq]
    simp [UMap.keys]
  · simp [CreateOptimizer_eq]

/-- Witness for C10: "GPU" and "CPU" registered, `S = {"GPU"}`. -/
theorem CreateOptimizer_matching_witness :
    stateGpuCpu.pluginFactories.keys.Nodup ∧
    ((∃ ds : List String, ds.Nodup ∧
      (∀ d, d ∈ ds ↔ d ∈ stateGpuCpu.pluginFactories.keys ∧ d ∈ ["GPU"]) ∧
      List.Forall₂
        (fun inst d => ∃ c, stateGpuCpu.pluginFactories.find d = some c ∧ inst = c ())
        (CreateOptimizer stateGpuCpu ["GPU"]).1 ds) ∧
    (CreateOptimizer stateGpuCpu ["GPU"]).1.length =
      (stateGpuCpu.pluginFactories.keys.toFinset ∩ ["GPU"].toFinset).card ∧
    (CreateOptimizer stateGpuCpu []).1 = [] ∧
    (CreateOptimizer stateGpuCpu ["GPU"]).1 = [some "gpu-optimizer"] ∧
    (CreateOptimizer stateGpuCpu ["TPU"]).1 = []) :=
  ⟨by decide, CreateOptimizer_matching stateGpuCpu ["GPU"] (by decide)⟩

/-! ## `CreateByNameOrNull` after a run of registrations -/

section byname

variable {Opt : Type}

theorem UMap.insert_fst_of_none {V : Type} (m : UMap V) (k : String) (v : V)
    (h : m.find k = none) : (m.insert k v).1 = m ++ [(k, v)] := by
  simp [UMap.insert, h]

theorem registerOptimizers_ok (regs : List (String × Creator Opt)) (g g1 : Globals Opt)
    (h : registerOptimizers g regs = Except.ok g1) :
    g1.builtins = g.builtins ++ regs ∧ (UMap.keys regs).Nodup ∧
      ∀ n ∈ UMap.keys regs, g.builtins.find n = none := by
  induction regs generalizing g with
  | nil =>
    simp only [registerOptimizers] at h
    injection h with h
    subst h
    simp [UMap.keys]
  | cons reg rest ih =>
    simp only [registerOptimizers] at h
    cases hR : RegisterOptimizerOrDie g reg.2 reg.1 with
    | error msg => rw [hR] at h; cases h
    | ok g2 =>
      rw [hR] at h
      simp only [] at h
      have hnone : g.builtins.find reg.1 = none := by
        cases hf : g.builtins.find reg.1 with
        | none => rfl
        | some v =>
          obtain ⟨msg, hmsg⟩ := RegisterOptimizerOrDie_of_some g reg.2 reg.1 (by rw [hf]; rfl)
          rw [hmsg] at hR
          cases hR
      obtain ⟨g2', hg2', hb⟩ := RegisterOptimizerOrDie_of_none g reg.2 reg.1 hnone
      rw [hR] at hg2'
      injection hg2' with hg2'
      subst hg2'
      rw [UMap.insert_fst_of_none _ _ _ hnone] at hb
      obtain ⟨hcontent, hnd, hfresh⟩ := ih g2 h
      have hrest : ∀ n ∈ UMap.keys rest, n ≠ reg.1 ∧ g.builtins.find n = none := by
        intro n hn
        have h2 := hfresh n hn
        rw [hb, UMap.find_append] at h2
        cases hg : g.builtins.find n with
        | some v => rw [hg] at h2; cases h2
        | none =>
          rw [hg] at h2
          refine ⟨?_, rfl⟩
          rintro rfl
          simp [UMap.find] at h2
      refine ⟨?_, ?_, ?_⟩
      · rw [hcontent, hb]
        simp
      · simp only [UMap.keys, List.map_cons, List.nodup_cons]
        exact ⟨fun hmem => (hrest _ hmem).1 rfl, hnd⟩
      · intro n hn
        simp only [UMap.keys, List.map_cons, List.mem_cons] at hn
        rcases hn with rfl | hn
        · exact hnone
        · exact (hrest n hn).2

theorem CreateByNameOrNull_fst (g : Globals Opt) (name : String) :
    (CreateByNameOrNull g name).1 =
      match g.builtins.find name with
      | none => (none, [])
      | some creator => (creator (), [name]) := by
  unfold CreateByNameOrNull
  simp only [GetRegistrationMap_fst]
  cases g.builtins.find name <;> rfl

end byname

/-- C11 (as amended): after a run of successful `RegisterOptimizerOrDie` calls from
process start, `CreateByNameOrNull` returns the null pointer and invokes no factory for a
name that was never registered; for a registered name it invokes the factory registered
under that name, once, and returns the pointer that this invocation hands back. The
result is therefore null exactly when the name was never registered or its factory
returns the null pointer. The function returns a value (no abort) for every name. -/
theorem CreateByNameOrNull_after_registrations {Opt : Type}
    (regs : List (String × Creator Opt)) (g : Globals Opt) (name : String)
    (h : registerOptimizers (Globals.init Opt) regs = Except.ok g) :
    (name ∉ UMap.keys regs → (CreateByNameOrNull g name).1 = (none, [])) ∧
    (∀ creator, (name, creator) ∈ regs →
      (CreateByNameOrNull g name).1 = (creator (), [name])) ∧
    ((CreateByNameOrNull g name).1.1 = none ↔
      name ∉ UMap.keys regs ∨ ∃ creator, (name, creator) ∈ regs ∧ creator () = none) := by
  obtain ⟨hcontent, hnd, _⟩ := registerOptimizers_ok regs _ g h
  have hb : g.builtins = regs := by
    rw [hcontent]
    simp [Globals.builtins, Globals.init]
  have hnot : name ∉ UMap.keys regs → (CreateByNameOrNull g name).1 = (none, []) := by
    intro hn
    rw [CreateByNameOrNull_fst, hb, (UMap.find_eq_none_iff regs name).mpr hn]
  have hreg : ∀ creator, (name, creator) ∈ regs →
      (CreateByNameOrNull g name).1 = (creator (), [name]) := by
    intro creator hmem
    rw [CreateByNameOrNull_fst, hb, UMap.find_of_mem_of_nodup regs hnd (name, creator) hmem]
  refine ⟨hnot, hreg, ?_⟩
  constructor
  · intro hnone
    by_cases hn : name ∈ UMap.keys regs
    · right
      obtain ⟨p, hp, hp1⟩ := List.mem_map.mp hn
      obtain ⟨n, creator⟩ := p
      simp only at hp1
      subst hp1
      refine ⟨creator, hp, ?_⟩
      rw [hreg creator hp] at hnone
      exact hnone
    · exact Or.inl hn
  · rintro (hn | ⟨creator, hmem, hnull⟩)
    · rw [hnot hn]
    · rw [hreg creator hmem]
      exact hnull

/-- Witness for C11: "a" and "b" registered at process start, lookup of "b". -/
theorem CreateByNameOrNull_after_registrations_witness :
    registerOptimizers (Globals.init String) builtinsAB = Except.ok stateAB ∧
    (("b" ∉ UMap.keys builtinsAB → (CreateByNameOrNull stateAB "b").1 = (none, [])) ∧
    (∀ creator, ("b", creator) ∈ builtinsAB →
      (CreateByNameOrNull stateAB "b").1 = (creator (), ["b"])) ∧
    ((CreateByNameOrNull stateAB "b").1.1 = none ↔
      "b" ∉ UMap.keys builtinsAB ∨
        ∃ creator, ("b", creator) ∈ builtinsAB ∧ creator () = none)) :=
  ⟨rfl, CreateByNameOrNull_after_registrations builtinsAB stateAB "b" rfl⟩

/-- Counterexample to C11 as stated: the name "null" is registered with a factory that
returns the null pointer; the registration succeeds, and `CreateByNameOrNull` returns the
null pointer for this registered name, after invoking the factory once. -/
theorem CreateByNameOrNull_null_factory :
    registerOptimizers (Globals.init String) builtinsNull = Except.ok stateNull ∧
    "null" ∈ UMap.keys builtinsNull ∧
    (CreateByNameOrNull stateNull "null").1 = (none, ["null"]) ∧
    ¬ ((CreateByNameOrNull stateNull "null").1.1 = none ↔
      "null" ∉ UMap.keys builtinsNull) :=
  ⟨rfl, by decide, rfl, fun hiff => hiff.mp rfl (by decide)⟩

/-! ## The query functions leave the registry as it is -/

section readonly

variable {Opt : Type}

theorem GetPluginConfigs.loop_congr (S : List String) (g g1 : Globals Opt)
    (ret : ConfigsList) (h : g1.pluginConfigs = g.pluginConfigs) :
    (GetPluginConfigs.loop S g1 ret).1 = (GetPluginConfigs.loop S g ret).1 := by
  induction S generalizing g g1 ret with
  | nil => rfl
  | cons d rest ih =>
    have hnext : (GetPluginConfigMap g1).2.pluginConfigs =
        (GetPluginConfigMap g).2.pluginConfigs := by
      rw [GetPluginConfigMap_snd, GetPluginConfigMap_snd, h]
    simp only [GetPluginConfigs.loop, GetPluginConfigMap_fst, h]
    cases g.pluginConfigs.find d with
    | none => exact ih _ _ _ hnext
    | some cur => exact ih _ _ _ hnext

theorem GetPluginConfigs_congr (g g1 : Globals Opt) (b : Bool) (S : List String)
    (h : g1.pluginConfigs = g.pluginConfigs) :
    (GetPluginConfigs g1 b S).1 = (GetPluginConfigs g b S).1 := by
  unfold GetPluginConfigs
  cases b
  · rfl
  · exact GetPluginConfigs.loop_congr S g g1 _ h

end readonly

/-- C12: `GetPluginConfigs` and `PrintPluginConfigsIfConflict` are read-only: after
either call the built-in map, the plugin factory map and the plugin config map hold what
they held before (a map pointer that was null may have become an empty map), the default
ConfigsList seen by a later call is the same, and a second `GetPluginConfigs` call with
the same arguments returns the same ConfigsList. -/
theorem GetPluginConfigs_read_only {Opt : Type} (g : Globals Opt) (b : Bool)
    (S T : List String) :
    g.SameContent (GetPluginConfigs g b S).2 ∧
    g.SameContent (PrintPluginConfigsIfConflict g S).2 ∧
    (GetPluginConfigs (GetPluginConfigs g b S).2 b S).1 = (GetPluginConfigs g b S).1 ∧
    (GetPluginConfigs (PrintPluginConfigsIfConflict g T).2 b S).1 =
      (GetPluginConfigs g b S).1 ∧
    (GetPluginConfigs (GetPluginConfigs g b S).2 false T).1 = default_plugin_configs ∧
    (GetPluginConfigs (PrintPluginConfigsIfConflict g S).2 false T).1 =
      default_plugin_configs :=
  ⟨GetPluginConfigs_same g b S, PrintPluginConfigsIfConflict_same g S,
    GetPluginConfigs_congr g _ b S (GetPluginConfigs_same g b S).2.2,
    GetPluginConfigs_congr g _ b S (PrintPluginConfigsIfConflict_same g T).2.2,
    by simp [GetPluginConfigs], by simp [GetPluginConfigs]⟩

/-! ## The ConfigsList built from a plugin descriptor -/

theorem CONFIG_TOGGLE_eq (field : TF_TriState) (name : String) (configs : ConfigsList) :
    CONFIG_TOGGLE field name configs =
      { configs with
        toggle_config := configs.toggle_config.assign name
          (if field = TF_TriState.TF_TriState_Off then Toggle.OFF else Toggle.ON) } := by
  unfold CONFIG_TOGGLE
  split <;> rfl

theorem UMap.assign_of_find_none {V : Type} (m : UMap V) (k : String) (v : V)
    (h : m.find k = none) : m.assign k v = m ++ [(k, v)] := by
  induction m with
  | nil => rfl
  | cons e rest ih =>
    obtain ⟨k0, v0⟩ := e
    by_cases h0 : k0 = k
    · simp [UMap.find, h0] at h
    · simp only [UMap.find, h0, if_false] at h
      simp [UMap.assign, h0, ih h]

theorem CONFIG_TOGGLE_foldl (l : List (String × TF_TriState)) (configs : ConfigsList)
    (hnd : (l.map Prod.fst).Nodup)
    (hnew : ∀ k ∈ l.map Prod.fst, configs.toggle_config.find k = none) :
    l.foldl (fun c p => CONFIG_TOGGLE p.2 p.1 c) configs =
      { configs with
        toggle_config := configs.toggle_config ++ l.map (fun p =>
          (p.1, if p.2 = TF_TriState.TF_TriState_Off then Toggle.OFF else Toggle.ON)) } := by
  induction l generalizing configs with
  | nil => simp
  | cons p rest ih =>
    simp only [List.map_cons, List.nodup_cons] at hnd
    have hp : configs.toggle_config.find p.1 = none := hnew p.1 (by simp)
    simp only [List.foldl_cons]
    rw [ih _ hnd.2]
    · rw [CONFIG_TOGGLE_eq, UMap.assign_of_find_none _ _ _ hp]
      simp
    · intro k hk
      have hk0 : configs.toggle_config.find k = none := hnew k (by simp [hk])
      have hne : ¬ p.1 = k := by
        rintro rfl
        exact hnd.1 hk
      rw [CONFIG_TOGGLE_eq, UMap.assign_of_find_none _ _ _ hp]
      simp [UMap.find_append, hk0, UMap.find, hne]

theorem TP_OptimizerConfigs.toggles_keys (tp_configs : TP_OptimizerConfigs) :
    tp_configs.toggles.map Prod.fst = passNames := rfl

theorem passNames_nodup : passNames.Nodup := by decide

theorem CGraphOptimizerRegister.configs_eq (tp_configs : TP_OptimizerConfigs) :
    CGraphOptimizerRegister.configs tp_configs =
      { disable_model_pruning :=
          decide (tp_configs.disable_model_pruning = TF_TriState.TF_TriState_On)
        toggle_config := tp_configs.toggles.map (fun p =>
          (p.1, if p.2 = TF_TriState.TF_TriState_Off then Toggle.OFF else Toggle.ON)) } := by
  have hfold : CGraphOptimizerRegister.configs tp_configs =
      tp_configs.toggles.foldl (fun c p => CONFIG_TOGGLE p.2 p.1 c)
        { disable_model_pruning :=
            if tp_configs.disable_model_pruning = TF_TriState.TF_TriState_On then true
            else false
          toggle_config := [] } := rfl
  have hnd : (tp_configs.toggles.map Prod.fst).Nodup := by
    rw [TP_OptimizerConfigs.toggles_keys]
    exact passNames_nodup
  rw [hfold, CONFIG_TOGGLE_foldl tp_configs.toggles
    { disable_model_pruning :=
        if tp_configs.disable_model_pruning = TF_TriState.TF_TriState_On then true
        else false
      toggle_config := [] } hnd (fun k _ => rfl)]
  by_cases h : tp_configs.disable_model_pruning = TF_TriState.TF_TriState_On <;> simp [h]

/-- C14: `CGraphOptimizerRegister` stores under the descriptor's device type the
ConfigsList built from the descriptor; in it the key named like a tri-state pass field is
OFF exactly when that field is Off and ON otherwise (On or unset), and
`disable_model_pruning` is true exactly when the descriptor's field is On. -/
theorem CGraphOptimizerRegister_translates {Opt : Type} (g g1 : Globals Opt)
    (creator : Creator Opt) (tp_configs : TP_OptimizerConfigs) (device_type : String)
    (p : String × TF_TriState)
    (hreg : CGraphOptimizerRegister g creator tp_configs device_type = Except.ok g1)
    (hp : p ∈ tp_configs.toggles) :
    g1.pluginConfigs.find device_type =
      some (CGraphOptimizerRegister.configs tp_configs) ∧
    ((CGraphOptimizerRegister.configs tp_configs).toggle_config.find p.1 =
        some Toggle.OFF ↔ p.2 = TF_TriState.TF_TriState_Off) ∧
    (CGraphOptimizerRegister.configs tp_configs).toggle_config.find p.1 =
      some (if p.2 = TF_TriState.TF_TriState_Off then Toggle.OFF else Toggle.ON) ∧
    ((CGraphOptimizerRegister.configs tp_configs).disable_model_pruning = true ↔
      tp_configs.disable_model_pruning = TF_TriState.TF_TriState_On) := by
  have hfind : (CGraphOptimizerRegister.configs tp_configs).toggle_config.find p.1 =
      some (if p.2 = TF_TriState.TF_TriState_Off then Toggle.OFF else Toggle.ON) := by
    rw [CGraphOptimizerRegister.configs_eq]
    have hnd : (UMap.keys (tp_configs.toggles.map (fun p =>
        (p.1, if p.2 = TF_TriState.TF_TriState_Off then Toggle.OFF else Toggle.ON)))).Nodup := by
      simp only [UMap.keys, List.map_map]
      exact passNames_nodup
    exact UMap.find_of_mem_of_nodup _ hnd
      (p.1, if p.2 = TF_TriState.TF_TriState_Off then Toggle.OFF else Toggle.ON)
      (List.mem_map_of_mem _ hp)
  refine ⟨?_, ?_, hfind, ?_⟩
  · obtain ⟨hnone, hc, _, _⟩ := RegisterPluginOptimizerOrDie_ok hreg
    rw [hc, UMap.find_append, hnone]
    simp [UMap.find]
  · rw [hfind]
    by_cases h : p.2 = TF_TriState.TF_TriState_Off <;> simp [h]
  · rw [CGraphOptimizerRegister.configs_eq]
    simp

/-- Witness for C14: a descriptor with remapping Off registered for "GPU" at process
start, field `remapping`. -/
theorem CGraphOptimizerRegister_translates_witness :
    CGraphOptimizerRegister (Globals.init String) (fun _ => some "gpu-optimizer") tpRemappingOff
      "GPU" =
      Except.ok ⟨none, some [("GPU", fun _ => some "gpu-optimizer")],
        some [("GPU", CGraphOptimizerRegister.configs tpRemappingOff)]⟩ ∧
    ("remapping", TF_TriState.TF_TriState_Off) ∈ tpRemappingOff.toggles ∧
    ((⟨none, some [("GPU", fun _ => some "gpu-optimizer")],
        some [("GPU", CGraphOptimizerRegister.configs tpRemappingOff)]⟩ :
        Globals String).pluginConfigs.find "GPU" =
      some (CGraphOptimizerRegister.configs tpRemappingOff) ∧
    ((CGraphOptimizerRegister.configs tpRemappingOff).toggle_config.find "remapping" =
        some Toggle.OFF ↔ TF_TriState.TF_TriState_Off = TF_TriState.TF_TriState_Off) ∧
    (CGraphOptimizerRegister.configs tpRemappingOff).toggle_config.find "remapping" =
      some (if TF_TriState.TF_TriState_Off = TF_TriState.TF_TriState_Off then Toggle.OFF
        else Toggle.ON) ∧
    ((CGraphOptimizerRegister.configs tpRemappingOff).disable_model_pruning = true ↔
      tpRemappingOff.disable_model_pruning = TF_TriState.TF_TriState_On)) :=
  ⟨rfl, by decide,
    CGraphOptimizerRegister_translates (Globals.init String) _ (fun _ => some "gpu-optimizer")
      tpRemappingOff "GPU" ("remapping", TF_TriState.TF_TriState_Off) rfl (by decide)⟩

/-! ## The key set of every ConfigsList -/

theorem UMap.keys_assign_of_mem {V : Type} (m : UMap V) (k : String) (v : V)
    (h : k ∈ m.keys) : (m.assign k v).keys = m.keys := by
  induction m with
  | nil => simp [UMap.keys] at h
  | cons e rest ih =>
    obtain ⟨k0, v0⟩ := e
    by_cases h0 : k0 = k
    · simp [UMap.assign, UMap.keys, h0]
    · have hne : ¬ k = k0 := fun e => h0 e.symm
      have hrest : k ∈ UMap.keys rest := by
        simpa [UMap.keys, hne] using h
      have ih' := ih hrest
      simp only [UMap.keys] at ih'
      simp [UMap.assign, UMap.keys, h0, ih']

theorem HasFullKeySet_of_keys_eq (m : UMap Toggle) (h : m.keys = passNames) :
    HasFullKeySet m := by
  intro k
  rw [h]

theorem GetPluginConfigs.inner_keys (entries : List (String × Toggle))
    (cur ret : UMap Toggle) (h : ∀ p ∈ entries, p.1 ∈ ret.keys) :
    (GetPluginConfigs.inner entries cur ret).keys = ret.keys := by
  induction entries generalizing cur ret with
  | nil => rfl
  | cons pair rest ih =>
    have hpair : pair.1 ∈ ret.keys := h pair (List.mem_cons_self _ _)
    have hrest : ∀ p ∈ rest, p.1 ∈ ret.keys := fun p hp => h p (List.mem_cons_of_mem _ hp)
    simp only [GetPluginConfigs.inner]
    split
    · rw [ih _ _ (by rw [UMap.keys_assign_of_mem _ _ _ hpair]; exact hrest),
        UMap.keys_assign_of_mem _ _ _ hpair]
    · exact ih _ _ hrest

theorem GetPluginConfigs.body_keys (cur ret : ConfigsList)
    (h : ∀ k ∈ cur.toggle_config.keys, k ∈ ret.toggle_config.keys) :
    (GetPluginConfigs.body cur ret).toggle_config.keys = ret.toggle_config.keys := by
  have hentries : ∀ p ∈ cur.toggle_config, p.1 ∈ ret.toggle_config.keys :=
    fun p hp => h p.1 (List.mem_map_of_mem Prod.fst hp)
  unfold GetPluginConfigs.body
  by_cases hp : cur.disable_model_pruning = true
  · simp only [hp, if_true]
    exact GetPluginConfigs.inner_keys _ _ _ hentries
  · simp only [hp]
    exact GetPluginConfigs.inner_keys _ _ _ hentries

theorem GetPluginConfigs.loop_keys {Opt : Type} (S : List String) (g : Globals Opt)
    (ret : ConfigsList)
    (h : ∀ d cfg, g.pluginConfigs.find d = some cfg →
      ∀ k ∈ cfg.toggle_config.keys, k ∈ ret.toggle_config.keys) :
    (GetPluginConfigs.loop S g ret).1.toggle_config.keys = ret.toggle_config.keys := by
  induction S generalizing g ret with
  | nil => rfl
  | cons d rest ih =>
    simp only [GetPluginConfigs.loop]
    rw [GetPluginConfigMap_fst]
    cases hfind : g.pluginConfigs.find d with
    | none =>
      simp only []
      exact ih _ _ (by rw [GetPluginConfigMap_snd]; exact h)
    | some cur =>
      simp only []
      have hb := GetPluginConfigs.body_keys cur ret (h d cur hfind)
      rw [ih _ _ (by rw [GetPluginConfigMap_snd, hb]; exact h), hb]

theorem stateXY_full (d : String) (cfg : ConfigsList)
    (h : stateXY.pluginConfigs.find d = some cfg) : HasFullKeySet cfg.toggle_config := by
  have hA : configA.toggle_config.keys = passNames := by decide
  have hB : remappingOff.toggle_config.keys = passNames := by decide
  simp only [stateXY, Globals.pluginConfigs, Option.getD_some, UMap.find] at h
  split at h
  · cases h
    exact HasFullKeySet_of_keys_eq _ hA
  · split at h
    · cases h
      exact HasFullKeySet_of_keys_eq _ hB
    · cases h

/-- C13: every ConfigsList the system creates has exactly the 17 pass keys, each once:
the process-wide default, every ConfigsList that `CGraphOptimizerRegister` builds from a
descriptor, and the result of `GetPluginConfigs` whenever every stored plugin ConfigsList
has the full key set. -/
theorem ConfigsList_full_key_set {Opt : Type} (g : Globals Opt) (b : Bool)
    (S : List String) (tp_configs : TP_OptimizerConfigs)
    (hfull : ∀ d cfg, g.pluginConfigs.find d = some cfg →
      HasFullKeySet cfg.toggle_config) :
    (HasFullKeySet default_plugin_configs.toggle_config ∧
      default_plugin_configs.toggle_config.keys = passNames) ∧
    (HasFullKeySet (CGraphOptimizerRegister.configs tp_configs).toggle_config ∧
      (CGraphOptimizerRegister.configs tp_configs).toggle_config.keys = passNames) ∧
    (HasFullKeySet (GetPluginConfigs g b S).1.toggle_config ∧
      (GetPluginConfigs g b S).1.toggle_config.keys = passNames) ∧
    passNames.Nodup ∧ passNames.length = 17 := by
  have hdef : default_plugin_configs.toggle_config.keys = passNames := by decide
  have htp : (CGraphOptimizerRegister.configs tp_configs).toggle_config.keys = passNames := by
    rw [CGraphOptimizerRegister.configs_eq]
    simp only [UMap.keys, List.map_map]
    exact tp_configs.toggles_keys
  have hget : (GetPluginConfigs g b S).1.toggle_config.keys = passNames := by
    unfold GetPluginConfigs
    cases b
    · exact hdef
    · simp only [Bool.not_true, Bool.false_eq_true, if_false]
      rw [GetPluginConfigs.loop_keys S g default_plugin_configs, hdef]
      intro d cfg hfind k hk
      rw [hdef]
      exact (hfull d cfg hfind k).mp hk
  exact ⟨⟨HasFullKeySet_of_keys_eq _ hdef, hdef⟩, ⟨HasFullKeySet_of_keys_eq _ htp, htp⟩,
    ⟨HasFullKeySet_of_keys_eq _ hget, hget⟩, passNames_nodup, rfl⟩

/-- Witness for C13: devices "X" and "Y" registered with full ConfigsLists, a descriptor
with remapping Off. -/
theorem ConfigsList_full_key_set_witness :
    (∀ d cfg, stateXY.pluginConfigs.find d = some cfg → HasFullKeySet cfg.toggle_config) ∧
    ((HasFullKeySet default_plugin_configs.toggle_config ∧
      default_plugin_configs.toggle_config.keys = passNames) ∧
    (HasFullKeySet (CGraphOptimizerRegister.configs tpRemappingOff).toggle_config ∧
      (CGraphOptimizerRegister.configs tpRemappingOff).toggle_config.keys = passNames) ∧
    (HasFullKeySet (GetPluginConfigs stateXY true ["X", "Y"]).1.toggle_config ∧
      (GetPluginConfigs stateXY true ["X", "Y"]).1.toggle_config.keys = passNames) ∧
    passNames.Nodup ∧ passNames.length = 17) :=
  ⟨stateXY_full,
    ConfigsList_full_key_set stateXY true ["X", "Y"] tpRemappingOff stateXY_full⟩

/-! ## `GetRegisteredOptimizers` -/

theorem GetRegisteredOptimizers.foldl_eq {V : Type} (m : UMap V) (acc : List String) :
    m.foldl (fun optimizer_names opt => optimizer_names ++ [opt.1]) acc = acc ++ m.keys := by
  induction m generalizing acc with
  | nil => simp [UMap.keys]
  | cons e rest ih =>
    simp only [List.foldl_cons, ih]
    simp [UMap.keys]

theorem GetRegisteredOptimizers_fst {Opt : Type} (g : Globals Opt) :
    (GetRegisteredOptimizers g).1 = g.builtins.keys := by
  unfold GetRegisteredOptimizers
  simp only [GetRegistrationMap_fst, GetRegisteredOptimizers.foldl_eq]
  simp

/-- C15: for a built-in map whose keys are unique (as they are in every
`unordered_map`), `GetRegisteredOptimizers` returns a list that holds exactly the
registered names, each once; its length is the number of registered built-ins, and it is
empty when nothing was registered. -/
theorem GetRegisteredOptimizers_names {Opt : Type} (g : Globals Opt)
    (hnd : g.builtins.keys.Nodup) :
    (∀ name, name ∈ (GetRegisteredOptimizers g).1 ↔ (g.builtins.find name).isSome = true) ∧
    (∀ name, (GetRegisteredOptimizers g).1.count name =
      if (g.builtins.find name).isSome = true then 1 else 0) ∧
    (GetRegisteredOptimizers g).1.Nodup ∧
    (GetRegisteredOptimizers g).1.length = g.builtins.length ∧
    (GetRegisteredOptimizers (Globals.init Opt)).1 = [] := by
  have hmem : ∀ name, name ∈ (GetRegisteredOptimizers g).1 ↔
      (g.builtins.find name).isSome = true := by
    intro name
    rw [GetRegisteredOptimizers_fst, UMap.find_isSome_iff]
  have hnd' : (GetRegisteredOptimizers g).1.Nodup := by
    rw [GetRegisteredOptimizers_fst]
    exact hnd
  refine ⟨hmem, ?_, hnd', ?_, rfl⟩
  · intro name
    by_cases h : (g.builtins.find name).isSome = true
    · rw [if_pos h]
      exact List.count_eq_one_of_mem hnd' ((hmem name).mpr h)
    · rw [if_neg h]
      exact List.count_eq_zero_of_not_mem (fun hm => h ((hmem name).mp hm))
  · rw [GetRegisteredOptimizers_fst]
    simp [UMap.keys]

/-- Witness for C15: the state with the built-ins "a" and "b". -/
theorem GetRegisteredOptimizers_names_witness :
    stateAB.builtins.keys.Nodup ∧
    ((∀ name, name ∈ (GetRegisteredOptimizers stateAB).1 ↔
      (stateAB.builtins.find name).isSome = true) ∧
    (∀ name, (GetRegisteredOptimizers stateAB).1.count name =
      if (stateAB.builtins.find name).isSome = true then 1 else 0) ∧
    (GetRegisteredOptimizers stateAB).1.Nodup ∧
    (GetRegisteredOptimizers stateAB).1.length = stateAB.builtins.length ∧
    (GetRegisteredOptimizers (Globals.init String)).1 = []) :=
  ⟨by decide, GetRegisteredOptimizers_names stateAB (by decide)⟩

/-! ## The conflict dump -/

theorem GetPluginConfigs.inner_noop (entries : List (String × Toggle))
    (cur ret : UMap Toggle)
    (h : ∀ p ∈ entries, ∃ v, cur.find p.1 = some v ∧ v ≠ Toggle.OFF) :
    GetPluginConfigs.inner entries cur ret = ret := by
  induction entries with
  | nil => rfl
  | cons pair rest ih =>
    obtain ⟨v, hv, hne⟩ := h pair (List.mem_cons_self _ _)
    simp only [GetPluginConfigs.inner, UMap.index_of_find _ _ _ _ hv, hne, if_false]
    exact ih (fun p hp => h p (List.mem_cons_of_mem _ hp))

theorem GetPluginConfigs.body_default (ret : ConfigsList) :
    GetPluginConfigs.body default_plugin_configs ret = ret := by
  have hall : ∀ p ∈ default_plugin_configs.toggle_config,
      ∃ v, default_plugin_configs.toggle_config.find p.1 = some v ∧ v ≠ Toggle.OFF := by
    decide
  unfold GetPluginConfigs.body
  have hp : ¬ default_plugin_configs.disable_model_pruning = true := by decide
  simp only [GetPluginConfigs.inner_noop _ _ _ hall]
  rw [if_neg hp]

theorem GetPluginConfigs.loop_append_noop {Opt : Type} (S : List String)
    (g g1 : Globals Opt) (ret cfg : ConfigsList) (d : String)
    (hg : g1.pluginConfigs = g.pluginConfigs ++ [(d, cfg)])
    (hbody : ∀ r, GetPluginConfigs.body cfg r = r) :
    (GetPluginConfigs.loop S g1 ret).1 = (GetPluginConfigs.loop S g ret).1 := by
  induction S generalizing g g1 ret with
  | nil => rfl
  | cons d' rest ih =>
    have hnext : (GetPluginConfigMap g1).2.pluginConfigs =
        (GetPluginConfigMap g).2.pluginConfigs ++ [(d, cfg)] := by
      rw [GetPluginConfigMap_snd, GetPluginConfigMap_snd, hg]
    simp only [GetPluginConfigs.loop, GetPluginConfigMap_fst]
    rw [hg, UMap.find_append]
    cases hfind : g.pluginConfigs.find d' with
    | some cur =>
      simp only [Option.orElse]
      exact ih _ _ _ hnext
    | none =>
      simp only [Option.orElse, UMap.find]
      by_cases hd : d = d'
      · simp only [hd, if_true, hbody]
        exact ih _ _ _ hnext
      · simp only [hd, if_false]
        exact ih _ _ _ hnext

/-- C17: a descriptor that leaves every tri-state field unset, or that sets every pass to
On and `disable_model_pruning` to Off, is translated by `CGraphOptimizerRegister` into
the process-wide default ConfigsList; `IsConfigsConflict` is then false for every
`user_config`, the merge step of `GetPluginConfigs` for it changes nothing, and after its
registration `GetPluginConfigs` returns what it returned before. -/
theorem CGraphOptimizerRegister_unrestricted {Opt : Type} (g g1 : Globals Opt)
    (creator : Creator Opt) (tp_configs : TP_OptimizerConfigs) (device_type : String)
    (user_config ret : ConfigsList) (S : List String)
    (htp : tp_configs = tpUnset ∨ tp_configs = tpAllOn)
    (hreg : CGraphOptimizerRegister g creator tp_configs device_type = Except.ok g1) :
    CGraphOptimizerRegister.configs tp_configs = default_plugin_configs ∧
    g1.pluginConfigs.find device_type = some default_plugin_configs ∧
    (IsConfigsConflict user_config (CGraphOptimizerRegister.configs tp_configs)).1 =
      some false ∧
    GetPluginConfigs.body (CGraphOptimizerRegister.configs tp_configs) ret = ret ∧
    (GetPluginConfigs g1 true S).1 = (GetPluginConfigs g true S).1 := by
  have hcfg : CGraphOptimizerRegister.configs tp_configs = default_plugin_configs := by
    rcases htp with rfl | rfl <;> decide
  obtain ⟨hnone, hc, _, _⟩ := RegisterPluginOptimizerOrDie_ok hreg
  rw [hcfg] at hc ⊢
  refine ⟨rfl, ?_, ?_, GetPluginConfigs.body_default ret, ?_⟩
  · rw [hc, UMap.find_append, hnone]
    simp [UMap.find]
  · simp [IsConfigsConflict, ConfigsList.eq_refl]
  · unfold GetPluginConfigs
    simp only [Bool.not_true, Bool.false_eq_true, if_false]
    exact GetPluginConfigs.loop_append_noop S g g1 _ _ device_type hc
      GetPluginConfigs.body_default

/-- Witness for C17: the unset descriptor registered for "TPU" next to "X" and "Y". -/
theorem CGraphOptimizerRegister_unrestricted_witness :
    (tpUnset = tpUnset ∨ tpUnset = tpAllOn) ∧
    CGraphOptimizerRegister stateXY (fun _ => some "T") tpUnset "TPU" =
      Except.ok ⟨none, some [("X", fun _ => some "X"), ("Y", fun _ => some "Y"), ("TPU", fun _ => some "T")],
        some [("X", configA), ("Y", remappingOff), ("TPU", default_plugin_configs)]⟩ ∧
    (CGraphOptimizerRegister.configs tpUnset = default_plugin_configs ∧
    (⟨none, some [("X", fun _ => some "X"), ("Y", fun _ => some "Y"), ("TPU", fun _ => some "T")],
        some [("X", configA), ("Y", remappingOff), ("TPU", default_plugin_configs)]⟩ :
        Globals String).pluginConfigs.find "TPU" = some default_plugin_configs ∧
    (IsConfigsConflict configARemappingOff (CGraphOptimizerRegister.configs tpUnset)).1 =
      some false ∧
    GetPluginConfigs.body (CGraphOptimizerRegister.configs tpUnset) remappingOff =
      remappingOff ∧
    (GetPluginConfigs (⟨none,
        some [("X", fun _ => some "X"), ("Y", fun _ => some "Y"), ("TPU", fun _ => some "T")],
        some [("X", configA), ("Y", remappingOff), ("TPU", default_plugin_configs)]⟩ :
        Globals String) true ["TPU", "X", "Y"]).1 =
      (GetPluginConfigs stateXY true ["TPU", "X", "Y"]).1) :=
  ⟨Or.inl rfl, rfl,
    CGraphOptimizerRegister_unrestricted stateXY _ (fun _ => some "T") tpUnset "TPU"
      configARemappingOff remappingOff ["TPU", "X", "Y"] (Or.inl rfl) rfl⟩

/-! ## The two plugin maps go together -/

/-- C18: in every reachable state the plugin factory map and the plugin config map have
the same device types as keys; the duplicate test on the config map therefore agrees with
the same test on the factory map, and a device type for which `CreateOptimizer` builds an
instance has a stored ConfigsList. -/
theorem plugin_maps_same_keys {Opt : Type} (g : Globals Opt) (hr : Reachable g)
    (creator : Creator Opt) (device_type : String) (configs : ConfigsList) :
    g.pluginFactories.keys = g.pluginConfigs.keys ∧
    ((g.pluginConfigs.insert device_type configs).2 = false ↔
      (g.pluginFactories.find device_type).isSome = true) ∧
    (g.pluginConfigs.insert device_type configs).2 =
      (g.pluginFactories.insert device_type creator).2 ∧
    ((CreateOptimizer g [device_type]).1 ≠ [] →
      (g.pluginConfigs.find device_type).isSome = true) := by
  have hkeys := hr.plugin_keys
  have hsame : (g.pluginFactories.find device_type).isSome = true ↔
      (g.pluginConfigs.find device_type).isSome = true := by
    rw [UMap.find_isSome_iff, UMap.find_isSome_iff, hkeys]
  have hins : ∀ {V : Type} (m : UMap V) (v : V),
      ((m.insert device_type v).2 = false ↔ (m.find device_type).isSome = true) := by
    intro V m v
    unfold UMap.insert
    cases m.find device_type <;> simp
  refine ⟨hkeys, (hins _ _).trans hsame.symm, ?_, ?_⟩
  · have h1 := hins g.pluginConfigs configs
    have h2 := hins g.pluginFactories creator
    cases hc : (g.pluginConfigs.insert device_type configs).2 with
    | false => exact ((h2.mpr (hsame.mpr (h1.mp hc)))).symm
    | true =>
      cases hf : (g.pluginFactories.insert device_type creator).2 with
      | true => rfl
      | false =>
        have := h1.mpr (hsame.mp (h2.mp hf))
        rw [hc] at this
        cases this
  · intro hne
    rw [← hsame, UMap.find_isSome_iff]
    rw [CreateOptimizer_eq] at hne
    cases hl : g.pluginFactories.filter (fun p => decide (p.1 ∈ [device_type])) with
    | nil => rw [hl] at hne; exact absurd rfl hne
    | cons q rest =>
      have hq : q ∈ g.pluginFactories.filter (fun p => decide (p.1 ∈ [device_type])) := by
        rw [hl]
        exact List.mem_cons_self _ _
      obtain ⟨hmem, hdec⟩ := List.mem_filter.mp hq
      have hq1 : q.1 = device_type := by simpa using hdec
      rw [← hq1]
      exact List.mem_map_of_mem Prod.fst hmem

/-- Witness for C18: the state reached by registering "GPU" and then "CPU". -/
theorem plugin_maps_same_keys_witness :
    Reachable stateGpuCpu ∧
    (stateGpuCpu.pluginFactories.keys = stateGpuCpu.pluginConfigs.keys ∧
    ((stateGpuCpu.pluginConfigs.insert "GPU" remappingOff).2 = false ↔
      (stateGpuCpu.pluginFactories.find "GPU").isSome = true) ∧
    (stateGpuCpu.pluginConfigs.insert "GPU" remappingOff).2 =
      (stateGpuCpu.pluginFactories.insert "GPU" (fun _ => some "other")).2 ∧
    ((CreateOptimizer stateGpuCpu ["GPU"]).1 ≠ [] →
      (stateGpuCpu.pluginConfigs.find "GPU").isSome = true)) :=
  ⟨stateGpuCpu_reachable,
    plugin_maps_same_keys stateGpuCpu stateGpuCpu_reachable (fun _ => some "other") "GPU"
      remappingOff⟩

/-! ## Monotonicity of the merge -/

/-- C19: `GetPluginConfigs` with plugin defaults is monotone in the device types: when
every member of `S` is in `T`, a pass that is OFF in the result for `S` is OFF in the
result for `T`, and `disable_model_pruning` true for `S` is true for `T`. -/
theorem GetPluginConfigs_monotone {Opt : Type} (g : Globals Opt) (S T : List String)
    (k : String) (hsub : ∀ d ∈ S, d ∈ T) :
    ((GetPluginConfigs g true S).1.toggle_config.find k = some Toggle.OFF →
      (GetPluginConfigs g true T).1.toggle_config.find k = some Toggle.OFF) ∧
    ((GetPluginConfigs g true S).1.disable_model_pruning = true →
      (GetPluginConfigs g true T).1.disable_model_pruning = true) := by
  have hrun : ∀ L : List String, (GetPluginConfigs g true L).1 =
      (GetPluginConfigs.loop L g default_plugin_configs).1 := by
    intro L
    simp [GetPluginConfigs]
  rw [hrun S, hrun T]
  constructor
  · intro hoff
    by_cases hex : ∃ d ∈ S, ∃ cfg, g.pluginConfigs.find d = some cfg ∧
        cfg.toggle_config.find k = some Toggle.OFF
    · obtain ⟨d, hd, rest⟩ := hex
      exact GetPluginConfigs.loop_toggle_off T g _ k (Or.inr ⟨d, hsub d hd, rest⟩)
    · rw [GetPluginConfigs.loop_toggle_keep S g _ k hex] at hoff
      exact GetPluginConfigs.loop_toggle_off T g _ k (Or.inl hoff)
  · intro hp
    rw [GetPluginConfigs.loop_pruning] at hp ⊢
    rcases hp with hp | ⟨d, hd, rest⟩
    · exact Or.inl hp
    · exact Or.inr ⟨d, hsub d hd, rest⟩

/-- Witness for C19: `S = {"X"}` inside `T = {"X", "Y"}`, pass remapping. -/
theorem GetPluginConfigs_monotone_witness :
    (∀ d ∈ ["X"], d ∈ ["X", "Y"]) ∧
    (((GetPluginConfigs stateXY true ["X"]).1.toggle_config.find "remapping" =
        some Toggle.OFF →
      (GetPluginConfigs stateXY true ["X", "Y"]).1.toggle_config.find "remapping" =
        some Toggle.OFF) ∧
    ((GetPluginConfigs stateXY true ["X"]).1.disable_model_pruning = true →
      (GetPluginConfigs stateXY true ["X", "Y"]).1.disable_model_pruning = true)) :=
  ⟨by decide, GetPluginConfigs_monotone stateXY ["X"] ["X", "Y"] "remapping" (by decide)⟩

/-! ## `IsConfigsConflict` and its arguments -/

theorem IsConfigsConflict.loop_unchanged (entries : List (String × Toggle))
    (user plugin : UMap Toggle)
    (hu : ∀ p ∈ entries, (user.find p.1).isSome = true)
    (hp : ∀ p ∈ entries, (plugin.find p.1).isSome = true) :
    (IsConfigsConflict.loop entries user plugin).2 = (user, plugin) := by
  induction entries with
  | nil => rfl
  | cons pair rest ih =>
    obtain ⟨v, hv⟩ := Option.isSome_iff_exists.mp (hu pair (List.mem_cons_self _ _))
    obtain ⟨w, hw⟩ := Option.isSome_iff_exists.mp (hp pair (List.mem_cons_self _ _))
    have ih' := ih (fun p h => hu p (List.mem_cons_of_mem _ h))
      (fun p h => hp p (List.mem_cons_of_mem _ h))
    simp only [IsConfigsConflict.loop, UMap.index_of_find _ _ _ _ hv,
      UMap.index_of_find _ _ _ _ hw]
    by_cases hon : v = Toggle.ON
    · by_cases hoff : w = Toggle.OFF
      · simp [hon, hoff]
      · simp only [hon, hoff, if_true, if_false]
        exact ih'
    · simp only [hon, if_false]
      exact ih'

/-- C20: when every key of `user_config`'s toggle map is also a key of `plugin_config`'s
toggle map and `IsConfigsConflict` returns a value, both arguments are as they were: the
inserting accessor adds no key and alters no value. Not every such call returns a value:
for the default with remapping OFF passed as both arguments the keys agree, yet control
reaches the closing brace without a `return`, so the call has no defined outcome there. -/
theorem IsConfigsConflict_arguments_unchanged (user_config plugin_config : ConfigsList)
    (b : Bool)
    (hsub : ∀ k ∈ user_config.toggle_config.keys, k ∈ plugin_config.toggle_config.keys)
    (hret : (IsConfigsConflict user_config plugin_config).1 = some b) :
    IsConfigsConflict user_config plugin_config = (some b, user_config, plugin_config) ∧
    ((∀ k ∈ remappingOff.toggle_config.keys, k ∈ remappingOff.toggle_config.keys) ∧
      (IsConfigsConflict remappingOff remappingOff).1 = none) := by
  have hargs : (IsConfigsConflict user_config plugin_config).2 =
      (user_config, plugin_config) := by
    unfold IsConfigsConflict
    split
    · rfl
    · split
      · rfl
      · have h := IsConfigsConflict.loop_unchanged user_config.toggle_config
          user_config.toggle_config plugin_config.toggle_config
          (fun p hp => UMap.find_isSome_of_mem _ p hp)
          (fun p hp => (UMap.find_isSome_iff _ _).mpr
            (hsub p.1 (List.mem_map_of_mem Prod.fst hp)))
        simp only [h]
  refine ⟨?_, fun k hk => hk, by decide⟩
  rw [← hret, ← hargs]

/-- Witness for C20: the user has the default (remapping ON), the plugin has remapping
OFF; the call returns true and leaves both arguments unchanged. -/
theorem IsConfigsConflict_arguments_unchanged_witness :
    (∀ k ∈ default_plugin_configs.toggle_config.keys, k ∈ remappingOff.toggle_config.keys) ∧
    (IsConfigsConflict default_plugin_configs remappingOff).1 = some true ∧
    (IsConfigsConflict default_plugin_configs remappingOff =
        (some true, default_plugin_configs, remappingOff) ∧
      ((∀ k ∈ remappingOff.toggle_config.keys, k ∈ remappingOff.toggle_config.keys) ∧
        (IsConfigsConflict remappingOff remappingOff).1 = none)) :=
  ⟨by decide, by decide,
    IsConfigsConflict_arguments_unchanged default_plugin_configs remappingOff true
      (by decide) (by decide)⟩

end grappler
end tensorflow
